import Mathlib

/-! # Daily report handlers

A shallow embedding of the report handlers of `handlers.go` (with the types of
`models.go`), followed by theorems about them.  `main.go` registers each
handler on its route directly, without the `requireAuth` wrapper, so a routed
operation is the handler itself.

* Go strings are byte sequences; `len` is the number of bytes and `s[i:j]` is a
  byte slice.
* The PostgreSQL database is a record of tables, each a list of rows in
  insertion order.  A transaction works on a copy of the tables which replaces
  the database at a commit that succeeds and is discarded otherwise.  SQL
  leaves the order of a table unspecified: `Store.sameRows` relates databases
  that differ in this order only.
* Everything the handlers cannot control is collected in `Env`: which database
  calls fail, and the values the database generates (serial ids, `created_at`).
-/

namespace Reports

/-! ## Go strings -/

/-- A Go string: an immutable sequence of bytes. -/
abbrev GoString := List UInt8

/-- The bytes of an ASCII string literal of the Go source. -/
def ascii (s : String) : GoString := s.toList.map (fun c => c.toNat.toUInt8)

/-- Bytewise lexicographic order on strings, the order of `ORDER BY` on the
ISO-formatted date and timestamp columns. -/
def strLess : GoString → GoString → Bool
  | [], [] => false
  | [], _ :: _ => true
  | _ :: _, [] => false
  | a :: as, b :: bs => a < b || (a == b && strLess as bs)

/-! ## models.go -/

structure User where
  ID : Int
  Username : GoString
  FullName : GoString
  Role : GoString
deriving DecidableEq, Repr

structure ShiftHours where
  ID : Int
  Name : GoString
  StartTime : GoString
  EndTime : GoString
deriving DecidableEq, Repr

structure EventTitle where
  ID : Int
  Title : GoString
deriving DecidableEq, Repr

structure EventPart3 where
  ID : Int
  EventSummary : GoString
  Trigger : GoString
  StartTime : GoString
  EndTime : GoString
  RCANumber : GoString
deriving DecidableEq, Repr

structure EventPart4 where
  ID : Int
  EventSummary : GoString
  Trigger : GoString
  StartTime : GoString
  EndTime : GoString
deriving DecidableEq, Repr

structure DailyReport where
  ID : Int
  ReportDate : GoString
  ShiftHours : Option ShiftHours
  ShiftManagers : List User
  EventTitles : List EventTitle
  HealthPowerSources : Bool
  HealthHumidityTemp : Bool
  HealthFireSystem : Bool
  EventsPart3 : List EventPart3
  EventsPart4 : List EventPart4
  CreatedBy : User
  CreatedAt : GoString
deriving DecidableEq, Repr

/-- The anonymous struct `reportData` decoded from the body by
`createReportHandler` and `updateReportHandler`. -/
structure ReportData where
  ReportDate : GoString
  ShiftHoursID : Option Int
  ShiftManagerIDs : List Int
  EventTitleIDs : List Int
  HealthPowerSources : Bool
  HealthHumidityTemp : Bool
  HealthFireSystem : Bool
  EventsPart3 : List EventPart3
  EventsPart4 : List EventPart4
deriving DecidableEq, Repr

/-! ## The database -/

/-- A row of `users` (the password column is not read by the report handlers). -/
structure UserRow where
  id : Int
  username : GoString
  full_name : GoString
  role : GoString
deriving DecidableEq, Repr

/-- A row of `shift_hours`. -/
structure ShiftHoursRow where
  id : Int
  name : GoString
  start_time : GoString
  end_time : GoString
deriving DecidableEq, Repr

/-- A row of `event_titles`. -/
structure EventTitleRow where
  id : Int
  title : GoString
deriving DecidableEq, Repr

/-- A row of `daily_reports`. -/
structure ReportRow where
  id : Int
  report_date : GoString
  shift_hours_id : Option Int
  health_power_sources : Bool
  health_humidity_temp : Bool
  health_fire_system : Bool
  created_by : Int
  created_at : GoString
deriving DecidableEq, Repr

/-- A row of `report_shift_managers`. -/
structure ShiftManagerRow where
  report_id : Int
  user_id : Int
deriving DecidableEq, Repr

/-- A row of `report_event_titles`. -/
structure ReportEventTitleRow where
  report_id : Int
  event_title_id : Int
deriving DecidableEq, Repr

/-- A row of `report_events_part3`; the two time columns are read into a
`sql.NullString`, so they may be NULL. -/
structure Part3Row where
  id : Int
  report_id : Int
  event_summary : GoString
  trigger_info : GoString
  start_time : Option GoString
  end_time : Option GoString
  rca_number : GoString
deriving DecidableEq, Repr

/-- A row of `report_events_part4`. -/
structure Part4Row where
  id : Int
  report_id : Int
  event_summary : GoString
  trigger_info : GoString
  start_time : Option GoString
  end_time : Option GoString
deriving DecidableEq, Repr

/-- The tables read and written by the report handlers. -/
structure Store where
  users : List UserRow
  shift_hours : List ShiftHoursRow
  event_titles : List EventTitleRow
  daily_reports : List ReportRow
  report_shift_managers : List ShiftManagerRow
  report_event_titles : List ReportEventTitleRow
  report_events_part3 : List Part3Row
  report_events_part4 : List Part4Row
deriving DecidableEq, Repr

/-- How a `db.Query` and the loop over its rows can go wrong. -/
inductive QueryFault where
  /-- No storage fault. -/
  | none
  /-- The call to `db.Query` returns an error. -/
  | issue
  /-- The `Scan` of row number `k` (from 0) returns an error. -/
  | scan (k : Nat)
  /-- After `k` rows `rows.Next()` returns false and `rows.Err()` is set. -/
  | iter (k : Nat)
deriving DecidableEq, Repr

/-- What the handlers do not control.  The database calls of one request are
numbered from 0 in the order the handler makes them. -/
structure Env where
  /-- Call `n`, a `Begin`, `QueryRow(..).Scan`, `Exec` or `Commit`, returns an
  error (other than `sql.ErrNoRows`). -/
  fail : Nat → Bool
  /-- The storage fault met by call `n` when it is a `db.Query`. -/
  rows : Nat → QueryFault
  /-- The serial id the database gives to the row inserted by call `n`. -/
  newID : Nat → Int
  /-- The default of the `created_at` column at the time of the request. -/
  createdAt : GoString

/-! ## Requests and responses -/

/-- What the handlers read from the gorilla session of a request. -/
structure Session where
  /-- Whether `store.Get` returns an error. -/
  err : Bool
  /-- The result of `session.Values["user_id"].(int)`, if the assertion holds. -/
  user_id : Option Int
  /-- The result of `session.Values["role"].(string)`, if the assertion holds. -/
  role : Option GoString
deriving DecidableEq, Repr

/-- The parts of an HTTP request the report handlers read. -/
structure Request where
  /-- The result of `strconv.Atoi(mux.Vars(r)["id"])`, `none` on error. -/
  id : Option Int
  /-- The value of `r.URL.Query().Get("date")`. -/
  date : GoString
  /-- The decoded JSON body, `none` when decoding fails. -/
  body : Option ReportData
  session : Session
deriving DecidableEq, Repr

/-- The outcome of a handler. -/
inductive Response (α : Type) where
  /-- Status 200 with the JSON encoding of `body`. -/
  | ok (body : α)
  /-- The result of `http.Error(w, msg, code)`. -/
  | error (code : Nat)
  /-- The handler panicked: the server drops the connection, no status is sent. -/
  | panicked
deriving DecidableEq, Repr

/-- The HTTP status sent to the client, if any. -/
def Response.status {α : Type} : Response α → Option Nat
  | .ok _ => some 200
  | .error code => some code
  | .panicked => none

/-! ## Time fields -/

/-- The storage form of a Part 3 / Part 4 time field, as computed inline by
`createReportHandler` and `updateReportHandler` before each insert:
`if t != "" && len(t) <= 5 { t = "1970-01-01 " + t + ":00" }`. -/
def normalizeTime (t : GoString) : GoString :=
  if t ≠ [] ∧ t.length ≤ 5 then ascii "1970-01-01 " ++ t ++ ascii ":00" else t

/-- The display form of a stored time, as computed inline by
`getReportsHandler`: `if len(t) >= 19 { t[11:16] } else { t }`. -/
def extractTime (t : GoString) : GoString :=
  if t.length ≥ 19 then (t.drop 11).take 5 else t

/-! ## Statements of a transaction -/

/-- Run `tx.Exec` once per element of a list, as the insert loops do.  The
statement for the element reached at call number `k` is `stmt k x`; the loop
stops with `none` at the first call that fails. -/
def execEach {α : Type} (fail : Nat → Bool) (stmt : Nat → α → Store → Store) :
    Nat → List α → Store → Option Store
  | _, [], tx => some tx
  | k, x :: xs, tx =>
    if fail k then none else execEach fail stmt (k + 1) xs (stmt k x tx)

/-- The statement
`INSERT INTO daily_reports (report_date, shift_hours_id, health_power_sources,
health_humidity_temp, health_fire_system, created_by) VALUES (..) RETURNING id`. -/
def insertReport (id : Int) (createdAt : GoString) (d : ReportData) (userID : Int)
    (tx : Store) : Store :=
  { tx with daily_reports := tx.daily_reports ++
      [{ id := id, report_date := d.ReportDate, shift_hours_id := d.ShiftHoursID,
         health_power_sources := d.HealthPowerSources,
         health_humidity_temp := d.HealthHumidityTemp,
         health_fire_system := d.HealthFireSystem,
         created_by := userID, created_at := createdAt }] }

/-- The statement `UPDATE daily_reports SET report_date = $1, shift_hours_id = $2,
health_power_sources = $3, health_humidity_temp = $4, health_fire_system = $5
WHERE id = $6`. -/
def updateReport (d : ReportData) (id : Int) (tx : Store) : Store :=
  { tx with daily_reports := tx.daily_reports.map fun row =>
      if row.id = id then
        { row with report_date := d.ReportDate, shift_hours_id := d.ShiftHoursID,
                   health_power_sources := d.HealthPowerSources,
                   health_humidity_temp := d.HealthHumidityTemp,
                   health_fire_system := d.HealthFireSystem }
      else row }

/-- The statement
`INSERT INTO report_shift_managers (report_id, user_id) VALUES ($1, $2)`. -/
def insertShiftManager (reportID managerID : Int) (tx : Store) : Store :=
  { tx with report_shift_managers := tx.report_shift_managers ++
      [{ report_id := reportID, user_id := managerID }] }

/-- The statement
`INSERT INTO report_event_titles (report_id, event_title_id) VALUES ($1, $2)`. -/
def insertEventTitle (reportID titleID : Int) (tx : Store) : Store :=
  { tx with report_event_titles := tx.report_event_titles ++
      [{ report_id := reportID, event_title_id := titleID }] }

/-- The body of the Part 3 insert loop: both times are normalised, then
`INSERT INTO report_events_part3 (report_id, event_summary, trigger_info,
start_time, end_time, rca_number) VALUES (..)`; `rowID` is the serial id. -/
def insertPart3 (rowID reportID : Int) (event : EventPart3) (tx : Store) : Store :=
  let startTime := normalizeTime event.StartTime
  let endTime := normalizeTime event.EndTime
  { tx with report_events_part3 := tx.report_events_part3 ++
      [{ id := rowID, report_id := reportID, event_summary := event.EventSummary,
         trigger_info := event.Trigger, start_time := some startTime,
         end_time := some endTime, rca_number := event.RCANumber }] }

/-- The body of the Part 4 insert loop: both times are normalised, then
`INSERT INTO report_events_part4 (report_id, event_summary, trigger_info,
start_time, end_time) VALUES (..)`; `rowID` is the serial id. -/
def insertPart4 (rowID reportID : Int) (event : EventPart4) (tx : Store) : Store :=
  let startTime := normalizeTime event.StartTime
  let endTime := normalizeTime event.EndTime
  { tx with report_events_part4 := tx.report_events_part4 ++
      [{ id := rowID, report_id := reportID, event_summary := event.EventSummary,
         trigger_info := event.Trigger, start_time := some startTime,
         end_time := some endTime }] }

/-- The statement `DELETE FROM report_shift_managers WHERE report_id = $1`. -/
def deleteShiftManagers (id : Int) (tx : Store) : Store :=
  { tx with report_shift_managers :=
      tx.report_shift_managers.filter fun row => decide (row.report_id ≠ id) }

/-- The statement `DELETE FROM report_event_titles WHERE report_id = $1`. -/
def deleteEventTitles (id : Int) (tx : Store) : Store :=
  { tx with report_event_titles :=
      tx.report_event_titles.filter fun row => decide (row.report_id ≠ id) }

/-- The statement `DELETE FROM report_events_part3 WHERE report_id = $1`. -/
def deletePart3 (id : Int) (tx : Store) : Store :=
  { tx with report_events_part3 :=
      tx.report_events_part3.filter fun row => decide (row.report_id ≠ id) }

/-- The statement `DELETE FROM report_events_part4 WHERE report_id = $1`. -/
def deletePart4 (id : Int) (tx : Store) : Store :=
  { tx with report_events_part4 :=
      tx.report_events_part4.filter fun row => decide (row.report_id ≠ id) }

/-- The statement `DELETE FROM daily_reports WHERE id = $1`. -/
def deleteReport (id : Int) (tx : Store) : Store :=
  { tx with daily_reports := tx.daily_reports.filter fun row => decide (row.id ≠ id) }

/-- The four insert loops shared by create and update, in source order
(managers, event titles, Part 3, Part 4), the first insert being call `k`. -/
def insertChildren (env : Env) (reportID : Int) (d : ReportData) (k : Nat)
    (tx : Store) : Option Store := do
  let tx ← execEach env.fail (fun _ managerID => insertShiftManager reportID managerID)
    k d.ShiftManagerIDs tx
  let k := k + d.ShiftManagerIDs.length
  let tx ← execEach env.fail (fun _ titleID => insertEventTitle reportID titleID)
    k d.EventTitleIDs tx
  let k := k + d.EventTitleIDs.length
  let tx ← execEach env.fail (fun n event => insertPart3 (env.newID n) reportID event)
    k d.EventsPart3 tx
  let k := k + d.EventsPart3.length
  execEach env.fail (fun n event => insertPart4 (env.newID n) reportID event)
    k d.EventsPart4 tx

/-- The number of child-row inserts a payload asks for. -/
def childCount (d : ReportData) : Nat :=
  d.ShiftManagerIDs.length + d.EventTitleIDs.length + d.EventsPart3.length +
    d.EventsPart4.length

/-! ## Write handlers -/

/-- The statements of `createReportHandler` between `db.Begin()` (call 0) and
`tx.Commit()`: the root insert (call 1) and the child inserts (from call 2).
`none` when a statement fails, which makes the handler respond 500 and return,
so that the deferred `tx.Rollback()` discards the transaction. -/
def createReportTx (env : Env) (d : ReportData) (userID : Int) (db : Store) :
    Option (Store × Int) :=
  if env.fail 0 then none else
  if env.fail 1 then none else
  let reportID := env.newID 1
  match insertChildren env reportID d 2 (insertReport reportID env.createdAt d userID db) with
  | none => none
  | some tx => some (tx, reportID)

/-- The handler of `POST /api/reports`.  Returns the database after the request
and the response (the body of a 200 is the new id). -/
def createReportHandler (env : Env) (db : Store) (r : Request) : Store × Response Int :=
  match r.session.user_id with
  | none => (db, .panicked)
  | some userID =>
    match r.body with
    | none => (db, .error 400)
    | some reportData =>
      match createReportTx env reportData userID db with
      | none => (db, .error 500)
      | some (tx, reportID) =>
        -- tx.Commit(), its error is not looked at
        (if env.fail (2 + childCount reportData) then db else tx, .ok reportID)

/-- The statements of `updateReportHandler` between `db.Begin()` (call 1) and
`tx.Commit()`: the root update (call 2), the four deletes (calls 3 to 6) and the
child inserts (from call 7).  `none` when a statement fails. -/
def updateReportTx (env : Env) (d : ReportData) (id : Int) (db : Store) : Option Store :=
  if env.fail 1 then none else
  if env.fail 2 then none else
  let tx := updateReport d id db
  if env.fail 3 then none else
  let tx := deleteShiftManagers id tx
  if env.fail 4 then none else
  let tx := deleteEventTitles id tx
  if env.fail 5 then none else
  let tx := deletePart3 id tx
  if env.fail 6 then none else
  let tx := deletePart4 id tx
  insertChildren env id d 7 tx

/-- The handler of `PUT /api/reports/{id}`. -/
def updateReportHandler (env : Env) (db : Store) (r : Request) : Store × Response Unit :=
  match r.id with
  | none => (db, .error 400)
  | some id =>
    match r.body with
    | none => (db, .error 400)
    | some reportData =>
      -- call 0: SELECT id, created_by FROM daily_reports WHERE id = $1
      if env.fail 0 then (db, .error 500) else
      match db.daily_reports.find? fun row => decide (row.id = id) with
      | none => (db, .error 404)
      | some existingReport =>
        if r.session.err then (db, .error 500) else
        match r.session.user_id with
        | none => (db, .error 401)
        | some userID =>
          match r.session.role with
          | none => (db, .error 500)
          | some userRole =>
            if existingReport.created_by ≠ userID ∧ userRole ≠ ascii "admin" then
              (db, .error 403)
            else
              match updateReportTx env reportData id db with
              | none => (db, .error 500)
              | some tx =>
                if env.fail (7 + childCount reportData) then (db, .error 500)
                else (tx, .ok ())

/-- The statements of `deleteReportHandler` between `db.Begin()` (call 0) and
`tx.Commit()`: the four child deletes (calls 1 to 4) and the root delete
(call 5).  `none` when a statement fails. -/
def deleteReportTx (env : Env) (id : Int) (db : Store) : Option Store :=
  if env.fail 0 then none else
  if env.fail 1 then none else
  let tx := deleteShiftManagers id db
  if env.fail 2 then none else
  let tx := deleteEventTitles id tx
  if env.fail 3 then none else
  let tx := deletePart3 id tx
  if env.fail 4 then none else
  let tx := deletePart4 id tx
  if env.fail 5 then none else
  some (deleteReport id tx)

/-- The handler of `DELETE /api/reports/{id}`.  The error of `strconv.Atoi` is
dropped, which leaves id 0. -/
def deleteReportHandler (env : Env) (db : Store) (r : Request) : Store × Response Unit :=
  let id := r.id.getD 0
  match deleteReportTx env id db with
  | none => (db, .error 500)
  | some tx =>
    -- tx.Commit(), its error is not looked at
    (if env.fail 6 then db else tx, .ok ())

/-! ## Queries -/

/-- The rows a loop `for rows.Next() { rows.Scan(..) }` collects from a query
whose result is `rows`, under a storage fault; `none` when the handler answers
500.  `checkErr` tells whether the handler tests `rows.Err()` after the loop:
when it does not, rows lost to an iteration fault go unnoticed. -/
def loadRows {α : Type} (fault : QueryFault) (checkErr : Bool) (rows : List α) :
    Option (List α) :=
  match fault with
  | .none => some rows
  | .issue => none
  | .scan k => if k < rows.length then none else some rows
  | .iter k => if checkErr then none else some (rows.take k)

/-- Insert into a list sorted by `before`, after the elements that come first. -/
def insertBy {α : Type} (before : α → α → Bool) (x : α) : List α → List α
  | [] => [x]
  | y :: ys => if before x y then x :: y :: ys else y :: insertBy before x ys

/-- Stable sort, the order an `ORDER BY` clause gives to the rows of a query. -/
def orderBy {α : Type} (before : α → α → Bool) : List α → List α
  | [] => []
  | x :: xs => insertBy before x (orderBy before xs)

/-- The rows of `shift_hours` that the `LEFT JOIN .. ON dr.shift_hours_id = sh.id`
attaches to a report row: all NULL when there is no match. -/
def joinShiftHours (db : Store) (dr : ReportRow) : List (Option ShiftHoursRow) :=
  match db.shift_hours.filter fun sh => decide (some sh.id = dr.shift_hours_id) with
  | [] => [none]
  | shs => shs.map some

/-- The rows of `daily_reports dr JOIN users u ON dr.created_by = u.id
LEFT JOIN shift_hours sh ON dr.shift_hours_id = sh.id` that satisfy `cond`. -/
def selectReports (db : Store) (cond : ReportRow → Bool) :
    List (ReportRow × UserRow × Option ShiftHoursRow) :=
  (db.daily_reports.filter cond).flatMap fun dr =>
    (db.users.filter fun u => decide (dr.created_by = u.id)).flatMap fun u =>
      (joinShiftHours db dr).map fun sh => (dr, u, sh)

/-- The `Scan` of a root row into `report`, `createdByUser` and the nullable
shift columns, followed by the assignments to `report.CreatedBy` and
`report.ShiftHours`. -/
def scanReport (row : ReportRow × UserRow × Option ShiftHoursRow) : DailyReport :=
  { ID := row.1.id, ReportDate := row.1.report_date,
    ShiftHours := row.2.2.map fun sh =>
      { ID := sh.id, Name := sh.name, StartTime := sh.start_time, EndTime := sh.end_time },
    ShiftManagers := [], EventTitles := [],
    HealthPowerSources := row.1.health_power_sources,
    HealthHumidityTemp := row.1.health_humidity_temp,
    HealthFireSystem := row.1.health_fire_system,
    EventsPart3 := [], EventsPart4 := [],
    CreatedBy := { ID := row.2.1.id, Username := row.2.1.username,
                   FullName := row.2.1.full_name, Role := row.2.1.role },
    CreatedAt := row.1.created_at }

/-- The query `SELECT u.id, u.username, u.full_name, u.role FROM users u JOIN
report_shift_managers rsm ON u.id = rsm.user_id WHERE rsm.report_id = $1`,
each row scanned into a `User`. -/
def selectShiftManagers (db : Store) (reportID : Int) : List User :=
  (db.report_shift_managers.filter fun rsm => decide (rsm.report_id = reportID)).flatMap
    fun rsm =>
      (db.users.filter fun u => decide (u.id = rsm.user_id)).map fun u =>
        { ID := u.id, Username := u.username, FullName := u.full_name, Role := u.role }

/-- The query `SELECT et.id, et.title FROM event_titles et JOIN
report_event_titles ret ON et.id = ret.event_title_id WHERE ret.report_id = $1`,
each row scanned into an `EventTitle`. -/
def selectEventTitles (db : Store) (reportID : Int) : List EventTitle :=
  (db.report_event_titles.filter fun ret => decide (ret.report_id = reportID)).flatMap
    fun ret =>
      (db.event_titles.filter fun et => decide (et.id = ret.event_title_id)).map fun et =>
        { ID := et.id, Title := et.title }

/-- The query `SELECT id, event_summary, trigger_info, start_time, end_time,
rca_number FROM report_events_part3 WHERE report_id = $1 ORDER BY id`. -/
def selectPart3 (db : Store) (reportID : Int) : List Part3Row :=
  orderBy (fun a b => decide (a.id ≤ b.id))
    (db.report_events_part3.filter fun row => decide (row.report_id = reportID))

/-- The query `SELECT id, event_summary, trigger_info, start_time, end_time
FROM report_events_part4 WHERE report_id = $1 ORDER BY id`. -/
def selectPart4 (db : Store) (reportID : Int) : List Part4Row :=
  orderBy (fun a b => decide (a.id ≤ b.id))
    (db.report_events_part4.filter fun row => decide (row.report_id = reportID))

/-- The body of the Part 3 loop of `getReportHandler`: a time that is not NULL
is copied as stored, a NULL leaves the zero value `""`. -/
def scanPart3 (row : Part3Row) : EventPart3 :=
  { ID := row.id, EventSummary := row.event_summary, Trigger := row.trigger_info,
    StartTime := row.start_time.getD [],
    EndTime := row.end_time.getD [],
    RCANumber := row.rca_number }

/-- The body of the Part 4 loop of `getReportHandler`. -/
def scanPart4 (row : Part4Row) : EventPart4 :=
  { ID := row.id, EventSummary := row.event_summary, Trigger := row.trigger_info,
    StartTime := row.start_time.getD [],
    EndTime := row.end_time.getD [] }

/-- The body of the Part 3 loop of `getReportsHandler`: a time that is not NULL
goes through the extraction of `HH:MM`, a NULL leaves the zero value `""`. -/
def scanPart3Time (row : Part3Row) : EventPart3 :=
  { ID := row.id, EventSummary := row.event_summary, Trigger := row.trigger_info,
    StartTime := (row.start_time.map extractTime).getD [],
    EndTime := (row.end_time.map extractTime).getD [],
    RCANumber := row.rca_number }

/-- The body of the Part 4 loop of `getReportsHandler`. -/
def scanPart4Time (row : Part4Row) : EventPart4 :=
  { ID := row.id, EventSummary := row.event_summary, Trigger := row.trigger_info,
    StartTime := (row.start_time.map extractTime).getD [],
    EndTime := (row.end_time.map extractTime).getD [] }

/-! ## Read handlers -/

/-- The handler of `GET /api/reports/{id}`.  Call 0 is the root `QueryRow`,
calls 1 to 4 the queries for managers, event titles, Part 3 and Part 4; each of
the four loops is followed by a test of `rows.Err()`. -/
def getReportHandler (env : Env) (db : Store) (r : Request) : Response DailyReport :=
  match r.id with
  | none => .error 400
  | some id =>
    if env.fail 0 then .error 500 else
    match (selectReports db fun dr => decide (dr.id = id)).head? with
    | none => .error 404
    | some row =>
      let report := scanReport row
      match loadRows (env.rows 1) true (selectShiftManagers db report.ID) with
      | none => .error 500
      | some managers =>
        match loadRows (env.rows 2) true (selectEventTitles db report.ID) with
        | none => .error 500
        | some titles =>
          match loadRows (env.rows 3) true (selectPart3 db report.ID) with
          | none => .error 500
          | some part3 =>
            match loadRows (env.rows 4) true (selectPart4 db report.ID) with
            | none => .error 500
            | some part4 =>
              .ok { report with ShiftManagers := managers, EventTitles := titles,
                                EventsPart3 := part3.map scanPart3,
                                EventsPart4 := part4.map scanPart4 }

/-- The body of the outer loop of `getReportsHandler` for one root row, its
four queries being calls `k` to `k + 3`.  Only the Part 3 loop is followed by a
test of `rows.Err()`. -/
def loadReport (env : Env) (db : Store) (k : Nat)
    (row : ReportRow × UserRow × Option ShiftHoursRow) : Option DailyReport := do
  let report := scanReport row
  let managers ← loadRows (env.rows k) false (selectShiftManagers db report.ID)
  let titles ← loadRows (env.rows (k + 1)) false (selectEventTitles db report.ID)
  let part3 ← loadRows (env.rows (k + 2)) true (selectPart3 db report.ID)
  let part4 ← loadRows (env.rows (k + 3)) false (selectPart4 db report.ID)
  pure { report with ShiftManagers := managers, EventTitles := titles,
                     EventsPart3 := part3.map scanPart3Time,
                     EventsPart4 := part4.map scanPart4Time }

/-- The outer loop of `getReportsHandler` over the root rows, the queries of
the first row starting at call `k`. -/
def loadReports (env : Env) (db : Store) :
    Nat → List (ReportRow × UserRow × Option ShiftHoursRow) → Option (List DailyReport)
  | _, [] => some []
  | k, row :: rest => do
    let report ← loadReport env db k row
    let reports ← loadReports env db (k + 4) rest
    pure (report :: reports)

/-- The order `ORDER BY dr.report_date DESC, dr.created_at DESC`. -/
def reportBefore (a b : ReportRow × UserRow × Option ShiftHoursRow) : Bool :=
  strLess b.1.report_date a.1.report_date ||
    (a.1.report_date == b.1.report_date && !strLess a.1.created_at b.1.created_at)

/-- The handler of `GET /api/reports`.  Call 0 is the root query, filtered by
the date when one is given; the loop over its rows tests `rows.Err()`. -/
def getReportsHandler (env : Env) (db : Store) (r : Request) : Response (List DailyReport) :=
  let dateFilter := r.date
  let rows := orderBy reportBefore
    (selectReports db fun dr => dateFilter == [] || dr.report_date == dateFilter)
  match loadRows (env.rows 0) true rows with
  | none => .error 500
  | some rows =>
    match loadReports env db 1 rows with
    | none => .error 500
    | some reports => .ok reports

/-! ## Rows built from a payload -/

/-- The rows of `report_events_part3` that the insert loop builds from a list
of events for report `reportID`, the first insert being call `k`. -/
def part3RowsOf (env : Env) (reportID : Int) : Nat → List EventPart3 → List Part3Row
  | _, [] => []
  | k, event :: rest =>
    { id := env.newID k, report_id := reportID, event_summary := event.EventSummary,
      trigger_info := event.Trigger, start_time := some (normalizeTime event.StartTime),
      end_time := some (normalizeTime event.EndTime), rca_number := event.RCANumber } ::
      part3RowsOf env reportID (k + 1) rest

/-- The rows of `report_events_part4` that the insert loop builds from a list
of events for report `reportID`, the first insert being call `k`. -/
def part4RowsOf (env : Env) (reportID : Int) : Nat → List EventPart4 → List Part4Row
  | _, [] => []
  | k, event :: rest =>
    { id := env.newID k, report_id := reportID, event_summary := event.EventSummary,
      trigger_info := event.Trigger, start_time := some (normalizeTime event.StartTime),
      end_time := some (normalizeTime event.EndTime) } ::
      part4RowsOf env reportID (k + 1) rest

/-! ## Sample data -/

/-- An environment without storage faults; the database numbers inserted rows
from 100. -/
def quietEnv : Env :=
  { fail := fun _ => false, rows := fun _ => .none,
    newID := fun n => 100 + n, createdAt := ascii "2024-03-01 12:00:00" }

/-- The environment of `quietEnv` in which call `n` alone fails. -/
def failAt (n : Nat) : Env :=
  { quietEnv with fail := fun k => decide (k = n) }

/-- A database with three users (1 and 2 ordinary, 3 an admin) and two reports:
report 1 of user 1 with one manager, one title, one Part 3 and one Part 4 row,
and report 2 of user 2 with one manager. -/
def sampleStore : Store :=
  { users := [⟨1, ascii "alice", ascii "Alice", ascii "user"⟩,
              ⟨2, ascii "bob", ascii "Bob", ascii "user"⟩,
              ⟨3, ascii "carol", ascii "Carol", ascii "admin"⟩],
    shift_hours := [⟨1, ascii "Day", ascii "08:00", ascii "16:00"⟩],
    event_titles := [⟨1, ascii "Outage"⟩, ⟨2, ascii "Maintenance"⟩],
    daily_reports :=
      [⟨1, ascii "2024-01-02", some 1, true, true, false, 1, ascii "2024-01-02 09:00:00"⟩,
       ⟨2, ascii "2024-01-03", none, true, false, true, 2, ascii "2024-01-03 09:00:00"⟩],
    report_shift_managers := [⟨1, 2⟩, ⟨2, 1⟩],
    report_event_titles := [⟨1, 1⟩],
    report_events_part3 :=
      [⟨1, 1, ascii "Link down", ascii "Alarm", some (ascii "1970-01-01 08:30:00"),
        some (ascii "1970-01-01 09:15:00"), ascii "RCA-1"⟩],
    report_events_part4 :=
      [⟨1, 1, ascii "Fan replaced", ascii "Ticket", some (ascii "1970-01-01 10:00:00"),
        some (ascii "1970-01-01 10:20:00")⟩] }

/-- A payload with one manager, one title, one Part 3 and one Part 4 entry. -/
def samplePayload : ReportData :=
  { ReportDate := ascii "2024-02-01", ShiftHoursID := some 1,
    ShiftManagerIDs := [3], EventTitleIDs := [2],
    HealthPowerSources := true, HealthHumidityTemp := true, HealthFireSystem := true,
    EventsPart3 := [⟨0, ascii "Disk full", ascii "Monitor", ascii "08:30", ascii "09:00",
                     ascii "RCA-7"⟩],
    EventsPart4 := [⟨0, ascii "Patch", ascii "Plan", ascii "11:00", ascii "11:30"⟩] }

/-- The payload of `samplePayload` without managers. -/
def noManagerPayload : ReportData :=
  { samplePayload with ShiftManagerIDs := [] }

/-- A session that holds a user id and a role. -/
def sessionOf (userID : Int) (role : String) : Session :=
  { err := false, user_id := some userID, role := some (ascii role) }

/-- A session without values, as for a caller who never logged in. -/
def emptySession : Session :=
  { err := false, user_id := none, role := none }

/-- A request for report `id` with an optional body. -/
def requestFor (id : Int) (body : Option ReportData) (session : Session) : Request :=
  { id := some id, date := [], body := body, session := session }

/-- The body of a 200 response. -/
def Response.body? {α : Type} : Response α → Option α
  | .ok body => some body
  | _ => none

/-! ## Time fields in the words of the specification -/

/-- The storage form of a time field as the specification words it: an empty
value and a value of more than 5 bytes pass through unchanged, any other value
is prefixed by the anchor date and suffixed by `:00`. -/
def canonicalTime (s : GoString) : GoString :=
  match s with
  | [] => []
  | _ :: _ => if 5 < s.length then s else ascii "1970-01-01 " ++ (s ++ ascii ":00")

/-! ## Aggregates of the collection fetch -/

/-- The aggregate that the outer loop of `getReportsHandler` builds for a root
row when its manager, title and Part 4 loops collect the first `n1`, `n2` and
`n4` rows of their queries: all of them, unless an iteration fault goes
unnoticed because `rows.Err()` is not tested. -/
def collectedReport (db : Store) (row : ReportRow × UserRow × Option ShiftHoursRow)
    (n1 n2 n4 : Nat) : DailyReport :=
  { scanReport row with
    ShiftManagers := (selectShiftManagers db row.1.id).take n1,
    EventTitles := (selectEventTitles db row.1.id).take n2,
    EventsPart3 := (selectPart3 db row.1.id).map scanPart3Time,
    EventsPart4 := ((selectPart4 db row.1.id).take n4).map scanPart4Time }

/-! ## Schema constraints -/

/-- Modelled from the spec: the constraints of the database schema, which is
not among the sources.  The specification gives users, shift hours and event
titles unique identifiers and makes the creator of every report a user. -/
def Store.consistent (db : Store) : Prop :=
  (db.users.map fun u => u.id).Nodup ∧
  (db.shift_hours.map fun sh => sh.id).Nodup ∧
  (db.event_titles.map fun et => et.id).Nodup ∧
  ∀ dr ∈ db.daily_reports, dr.created_by ∈ db.users.map fun u => u.id

/-- Modelled from the spec: a serial id that the database has not handed out
yet.  No root row carries it and, every child row belonging to a stored
report, no child row refers to it. -/
def Store.unused (db : Store) (id : Int) : Prop :=
  (∀ row ∈ db.daily_reports, row.id ≠ id) ∧
  (∀ row ∈ db.report_shift_managers, row.report_id ≠ id) ∧
  (∀ row ∈ db.report_event_titles, row.report_id ≠ id) ∧
  (∀ row ∈ db.report_events_part3, row.report_id ≠ id) ∧
  (∀ row ∈ db.report_events_part4, row.report_id ≠ id)

/-- Modelled from the spec: a payload whose references satisfy the foreign
keys of the schema: its shift managers are users, its event titles are event
titles, and its shift hours, when given, exist. -/
def ReportData.valid (d : ReportData) (db : Store) : Prop :=
  (∀ m ∈ d.ShiftManagerIDs, m ∈ db.users.map fun u => u.id) ∧
  (∀ t ∈ d.EventTitleIDs, t ∈ db.event_titles.map fun et => et.id) ∧
  (∀ k, d.ShiftHoursID = some k → k ∈ db.shift_hours.map fun sh => sh.id)

/-! ## More sample data -/

/-- A `POST /api/reports` request. -/
def postRequest (body : ReportData) (session : Session) : Request :=
  { id := none, date := [], body := some body, session := session }

/-- A `GET /api/reports` request with a date filter (`""` for none). -/
def listRequest (date : String) : Request :=
  { id := none, date := ascii date, body := none, session := emptySession }

/-- The environment of `quietEnv` in which the rows of query `n` are lost after
the first `k` to an iteration fault. -/
def iterFaultAt (n k : Nat) : Env :=
  { quietEnv with rows := fun j => if j = n then .iter k else .none }


/-! ## Rows of one report -/

/-- The stored rows of report `j`: its root row and its rows in the four child
tables, each in table order. -/
def rowsOfReport (db : Store) (j : Int) :
    List ReportRow × List ShiftManagerRow × List ReportEventTitleRow × List Part3Row ×
      List Part4Row :=
  (db.daily_reports.filter fun row => decide (row.id = j),
   db.report_shift_managers.filter fun row => decide (row.report_id = j),
   db.report_event_titles.filter fun row => decide (row.report_id = j),
   db.report_events_part3.filter fun row => decide (row.report_id = j),
   db.report_events_part4.filter fun row => decide (row.report_id = j))


/-! ## Physical order of the tables -/

/-- Two databases hold the same rows: every table of the one is a
rearrangement of the same table of the other.  A table has no order of its
own; the order of its list is the order in which a query without `ORDER BY`
happens to return the rows. -/
def Store.sameRows (a b : Store) : Prop :=
  a.users.Perm b.users ∧ a.shift_hours.Perm b.shift_hours ∧
  a.event_titles.Perm b.event_titles ∧ a.daily_reports.Perm b.daily_reports ∧
  a.report_shift_managers.Perm b.report_shift_managers ∧
  a.report_event_titles.Perm b.report_event_titles ∧
  a.report_events_part3.Perm b.report_events_part3 ∧
  a.report_events_part4.Perm b.report_events_part4

/-- The database with the rows of every table in the opposite order. -/
def reversedStore (db : Store) : Store :=
  { users := db.users.reverse, shift_hours := db.shift_hours.reverse,
    event_titles := db.event_titles.reverse, daily_reports := db.daily_reports.reverse,
    report_shift_managers := db.report_shift_managers.reverse,
    report_event_titles := db.report_event_titles.reverse,
    report_events_part3 := db.report_events_part3.reverse,
    report_events_part4 := db.report_events_part4.reverse }

/-- An environment without storage faults in which every table has its own
sequence of serial ids, continuing the ids of `sampleStore`: the root insert
(call 1) gets report id 3, and in a create with one manager and one title the
two Part 3 inserts (calls 4 and 5) get ids 2 and 3 and the two Part 4 inserts
(calls 6 and 7) get ids 2 and 3. -/
def tableEnv : Env :=
  { quietEnv with
    newID := fun n =>
      if n = 1 then 3 else if n = 4 then 2 else if n = 5 then 3
      else if n = 6 then 2 else if n = 7 then 3 else 0 }

/-- A payload with one manager, one title, two Part 3 and two Part 4 entries. -/
def twoEventPayload : ReportData :=
  { samplePayload with
    EventsPart3 :=
      [⟨0, ascii "Disk full", ascii "Monitor", ascii "08:30", ascii "09:00", ascii "RCA-7"⟩,
       ⟨0, ascii "Disk replaced", ascii "Ticket", ascii "09:10", ascii "09:40", ascii "RCA-8"⟩],
    EventsPart4 :=
      [⟨0, ascii "Patch", ascii "Plan", ascii "11:00", ascii "11:30"⟩,
       ⟨0, ascii "Reboot", ascii "Patch", ascii "11:30", ascii "11:35"⟩] }

/-! # Theorems -/

/-! ## Insert loops -/

/-- An insert loop that runs to its end met no failing call. -/
theorem execEach_calls_ok {α : Type} (fail : Nat → Bool) (stmt : Nat → α → Store → Store) :
    ∀ (xs : List α) (k : Nat) (tx out : Store), execEach fail stmt k xs tx = some out →
      ∀ j, k ≤ j → j < k + xs.length → fail j = false := by
  intro xs
  induction xs with
  | nil => intro k tx out _ j h1 h2; simp at h2; omega
  | cons x xs ih =>
    intro k tx out h j h1 h2
    simp only [execEach] at h
    by_cases hf : fail k = true
    · simp [hf] at h
    · simp only [hf, if_false, Bool.false_eq_true] at h
      by_cases hj : j = k
      · subst hj; simpa using hf
      · exact ih (k + 1) _ out h j (by omega) (by simp at h2; omega)

/-- The manager loop appends one link per submitted id, in order. -/
theorem execEach_shift_managers (fail : Nat → Bool) (reportID : Int) :
    ∀ (xs : List Int) (k : Nat) (tx out : Store),
      execEach fail (fun _ managerID => insertShiftManager reportID managerID) k xs tx =
        some out →
      out = { tx with report_shift_managers := tx.report_shift_managers ++
                xs.map fun managerID => { report_id := reportID, user_id := managerID } } := by
  intro xs
  induction xs with
  | nil => intro k tx out h; simp [execEach] at h; subst h; simp
  | cons x xs ih =>
    intro k tx out h
    simp only [execEach] at h
    by_cases hf : fail k = true
    · simp [hf] at h
    · simp only [hf, if_false, Bool.false_eq_true] at h
      rw [ih (k + 1) _ out h]
      simp [insertShiftManager]

/-- The title loop appends one link per submitted id, in order. -/
theorem execEach_event_titles (fail : Nat → Bool) (reportID : Int) :
    ∀ (xs : List Int) (k : Nat) (tx out : Store),
      execEach fail (fun _ titleID => insertEventTitle reportID titleID) k xs tx = some out →
      out = { tx with report_event_titles := tx.report_event_titles ++
                xs.map fun titleID => { report_id := reportID, event_title_id := titleID } } := by
  intro xs
  induction xs with
  | nil => intro k tx out h; simp [execEach] at h; subst h; simp
  | cons x xs ih =>
    intro k tx out h
    simp only [execEach] at h
    by_cases hf : fail k = true
    · simp [hf] at h
    · simp only [hf, if_false, Bool.false_eq_true] at h
      rw [ih (k + 1) _ out h]
      simp [insertEventTitle]

/-- The Part 3 loop appends the rows built from the submitted events. -/
theorem execEach_part3 (env : Env) (reportID : Int) :
    ∀ (xs : List EventPart3) (k : Nat) (tx out : Store),
      execEach env.fail (fun n event => insertPart3 (env.newID n) reportID event) k xs tx =
        some out →
      out = { tx with report_events_part3 := tx.report_events_part3 ++
                part3RowsOf env reportID k xs } := by
  intro xs
  induction xs with
  | nil => intro k tx out h; simp [execEach] at h; subst h; simp [part3RowsOf]
  | cons x xs ih =>
    intro k tx out h
    simp only [execEach] at h
    by_cases hf : env.fail k = true
    · simp [hf] at h
    · simp only [hf, if_false, Bool.false_eq_true] at h
      rw [ih (k + 1) _ out h]
      simp [insertPart3, part3RowsOf]

/-- The Part 4 loop appends the rows built from the submitted events. -/
theorem execEach_part4 (env : Env) (reportID : Int) :
    ∀ (xs : List EventPart4) (k : Nat) (tx out : Store),
      execEach env.fail (fun n event => insertPart4 (env.newID n) reportID event) k xs tx =
        some out →
      out = { tx with report_events_part4 := tx.report_events_part4 ++
                part4RowsOf env reportID k xs } := by
  intro xs
  induction xs with
  | nil => intro k tx out h; simp [execEach] at h; subst h; simp [part4RowsOf]
  | cons x xs ih =>
    intro k tx out h
    simp only [execEach] at h
    by_cases hf : env.fail k = true
    · simp [hf] at h
    · simp only [hf, if_false, Bool.false_eq_true] at h
      rw [ih (k + 1) _ out h]
      simp [insertPart4, part4RowsOf]

/-- The four insert loops, when they run to the end, met no failing call. -/
theorem insertChildren_calls_ok (env : Env) (reportID : Int) (d : ReportData) (k : Nat)
    (tx out : Store) (h : insertChildren env reportID d k tx = some out) :
    ∀ j, k ≤ j → j < k + childCount d → env.fail j = false := by
  simp only [insertChildren, Option.bind_eq_bind, Option.bind_eq_some] at h
  obtain ⟨t1, h1, t2, h2, t3, h3, h4⟩ := h
  intro j hj1 hj2
  simp only [childCount] at hj2
  by_cases c1 : j < k + d.ShiftManagerIDs.length
  · exact execEach_calls_ok _ _ _ _ _ _ h1 j hj1 c1
  by_cases c2 : j < k + d.ShiftManagerIDs.length + d.EventTitleIDs.length
  · exact execEach_calls_ok _ _ _ _ _ _ h2 j (by omega) c2
  by_cases c3 : j < k + d.ShiftManagerIDs.length + d.EventTitleIDs.length +
      d.EventsPart3.length
  · exact execEach_calls_ok _ _ _ _ _ _ h3 j (by omega) c3
  · exact execEach_calls_ok _ _ _ _ _ _ h4 j (by omega) (by omega)

/-- The tables after the four insert loops have run to the end. -/
theorem insertChildren_result (env : Env) (reportID : Int) (d : ReportData) (k : Nat)
    (tx out : Store) (h : insertChildren env reportID d k tx = some out) :
    out = { tx with
      report_shift_managers := tx.report_shift_managers ++
        d.ShiftManagerIDs.map fun managerID => { report_id := reportID, user_id := managerID },
      report_event_titles := tx.report_event_titles ++
        d.EventTitleIDs.map fun titleID => { report_id := reportID, event_title_id := titleID },
      report_events_part3 := tx.report_events_part3 ++
        part3RowsOf env reportID (k + d.ShiftManagerIDs.length + d.EventTitleIDs.length)
          d.EventsPart3,
      report_events_part4 := tx.report_events_part4 ++
        part4RowsOf env reportID
          (k + d.ShiftManagerIDs.length + d.EventTitleIDs.length + d.EventsPart3.length)
          d.EventsPart4 } := by
  simp only [insertChildren, Option.bind_eq_bind, Option.bind_eq_some] at h
  obtain ⟨t1, h1, t2, h2, t3, h3, h4⟩ := h
  rw [execEach_part4 env reportID _ _ _ _ h4, execEach_part3 env reportID _ _ _ _ h3,
    execEach_event_titles env.fail reportID _ _ _ _ h2,
    execEach_shift_managers env.fail reportID _ _ _ _ h1]

/-! ## Transactions -/

/-- A create transaction that reaches the commit met no failing call. -/
theorem createReportTx_calls_ok (env : Env) (d : ReportData) (userID : Int) (db : Store)
    (out : Store × Int) (h : createReportTx env d userID db = some out) :
    ∀ j, j < 2 + childCount d → env.fail j = false := by
  unfold createReportTx at h
  by_cases h0 : env.fail 0 = true
  · simp [h0] at h
  by_cases h1 : env.fail 1 = true
  · simp [h0, h1] at h
  simp only [h0, h1, if_false, Bool.false_eq_true] at h
  cases hc : insertChildren env (env.newID 1) d 2
      (insertReport (env.newID 1) env.createdAt d userID db) with
  | none => simp [hc] at h
  | some tx =>
    intro j hj
    by_cases c0 : j = 0
    · subst c0; simpa using h0
    by_cases c1 : j = 1
    · subst c1; simpa using h1
    exact insertChildren_calls_ok env _ d 2 _ tx hc j (by omega) (by omega)

/-- An update transaction that reaches the commit met no failing call, and its
tables come from the root update, the four deletes and the insert loops. -/
theorem updateReportTx_some (env : Env) (d : ReportData) (id : Int) (db out : Store)
    (h : updateReportTx env d id db = some out) :
    (∀ j, 1 ≤ j → j < 7 + childCount d → env.fail j = false) ∧
    insertChildren env id d 7
      (deletePart4 id (deletePart3 id (deleteEventTitles id
        (deleteShiftManagers id (updateReport d id db))))) = some out := by
  unfold updateReportTx at h
  by_cases h1 : env.fail 1 = true
  · simp [h1] at h
  by_cases h2 : env.fail 2 = true
  · simp [h1, h2] at h
  by_cases h3 : env.fail 3 = true
  · simp [h1, h2, h3] at h
  by_cases h4 : env.fail 4 = true
  · simp [h1, h2, h3, h4] at h
  by_cases h5 : env.fail 5 = true
  · simp [h1, h2, h3, h4, h5] at h
  by_cases h6 : env.fail 6 = true
  · simp [h1, h2, h3, h4, h5, h6] at h
  simp only [h1, h2, h3, h4, h5, h6, if_false, Bool.false_eq_true] at h
  refine ⟨?_, h⟩
  intro j hj1 hj2
  by_cases c : 7 ≤ j
  · exact insertChildren_calls_ok env id d 7 _ out h j c hj2
  · have hj : j = 1 ∨ j = 2 ∨ j = 3 ∨ j = 4 ∨ j = 5 ∨ j = 6 := by omega
    rcases hj with rfl | rfl | rfl | rfl | rfl | rfl <;> simp_all

/-- A delete transaction that reaches the commit met no failing call and has
run the five deletes. -/
theorem deleteReportTx_some (env : Env) (id : Int) (db out : Store)
    (h : deleteReportTx env id db = some out) :
    (∀ j, j ≤ 5 → env.fail j = false) ∧
    out = deleteReport id (deletePart4 id (deletePart3 id (deleteEventTitles id
      (deleteShiftManagers id db)))) := by
  unfold deleteReportTx at h
  by_cases h0 : env.fail 0 = true
  · simp [h0] at h
  by_cases h1 : env.fail 1 = true
  · simp [h0, h1] at h
  by_cases h2 : env.fail 2 = true
  · simp [h0, h1, h2] at h
  by_cases h3 : env.fail 3 = true
  · simp [h0, h1, h2, h3] at h
  by_cases h4 : env.fail 4 = true
  · simp [h0, h1, h2, h3, h4] at h
  by_cases h5 : env.fail 5 = true
  · simp [h0, h1, h2, h3, h4, h5] at h
  simp only [h0, h1, h2, h3, h4, h5, if_false, Bool.false_eq_true, Option.some.injEq] at h
  refine ⟨?_, h.symm⟩
  intro j hj
  have hj : j = 0 ∨ j = 1 ∨ j = 2 ∨ j = 3 ∨ j = 4 ∨ j = 5 := by omega
  rcases hj with rfl | rfl | rfl | rfl | rfl | rfl <;> simp_all

/-- A delete transaction none of whose calls fails runs the five deletes. -/
theorem deleteReportTx_of_ok (env : Env) (id : Int) (db : Store)
    (h : ∀ j, j ≤ 5 → env.fail j = false) :
    deleteReportTx env id db =
      some (deleteReport id (deletePart4 id (deletePart3 id (deleteEventTitles id
        (deleteShiftManagers id db))))) := by
  simp [deleteReportTx, h 0, h 1, h 2, h 3, h 4, h 5]

/-- The database changes in a create only when no call up to the commit fails. -/
theorem createReportHandler_changed (env : Env) (db : Store) (r : Request)
    (h : (createReportHandler env db r).1 ≠ db) :
    ∃ d, r.body = some d ∧ ∀ j, j ≤ 2 + childCount d → env.fail j = false := by
  unfold createReportHandler at h
  cases hu : r.session.user_id with
  | none => simp [hu] at h
  | some userID =>
    cases hb : r.body with
    | none => simp [hu, hb] at h
    | some d =>
      cases ht : createReportTx env d userID db with
      | none => simp [hu, hb, ht] at h
      | some out =>
        simp only [hu, hb, ht] at h
        by_cases hc : env.fail (2 + childCount d) = true
        · simp [hc] at h
        · refine ⟨d, rfl, ?_⟩
          intro j hj
          by_cases hj2 : j = 2 + childCount d
          · subst hj2; simpa using hc
          · exact createReportTx_calls_ok env d userID db out ht j (by omega)

/-- A create answers 200 only when no call before the commit fails. -/
theorem createReportHandler_ok (env : Env) (db : Store) (r : Request) (id : Int)
    (h : (createReportHandler env db r).2 = .ok id) :
    ∃ d, r.body = some d ∧ ∀ j, j < 2 + childCount d → env.fail j = false := by
  unfold createReportHandler at h
  cases hu : r.session.user_id with
  | none => simp [hu] at h
  | some userID =>
    cases hb : r.body with
    | none => simp [hu, hb] at h
    | some d =>
      cases ht : createReportTx env d userID db with
      | none => simp [hu, hb, ht] at h
      | some out => exact ⟨d, rfl, createReportTx_calls_ok env d userID db out ht⟩

/-- An update that answers 200 has run its transaction to a commit that
succeeded, and leaves the tables of that transaction. -/
theorem updateReportHandler_ok (env : Env) (db : Store) (r : Request)
    (h : (updateReportHandler env db r).2 = .ok ()) :
    ∃ id d, r.id = some id ∧ r.body = some d ∧ env.fail 0 = false ∧
      env.fail (7 + childCount d) = false ∧
      updateReportTx env d id db = some (updateReportHandler env db r).1 := by
  unfold updateReportHandler at h ⊢
  cases hi : r.id with
  | none => simp [hi] at h
  | some id =>
    cases hb : r.body with
    | none => simp [hi, hb] at h
    | some d =>
      simp only [hi, hb] at h ⊢
      by_cases h0 : env.fail 0 = true
      · simp [h0] at h
      simp only [h0, if_false, Bool.false_eq_true] at h ⊢
      cases hf : db.daily_reports.find? fun row => decide (row.id = id) with
      | none => simp [hf] at h
      | some existing =>
        simp only [hf] at h ⊢
        by_cases he : r.session.err = true
        · simp [he] at h
        simp only [he, if_false, Bool.false_eq_true] at h ⊢
        cases hu : r.session.user_id with
        | none => simp [hu] at h
        | some userID =>
          cases hr : r.session.role with
          | none => simp [hu, hr] at h
          | some role =>
            simp only [hu, hr] at h ⊢
            by_cases hp : existing.created_by ≠ userID ∧ role ≠ ascii "admin"
            · simp [hp] at h
            simp only [hp, if_false] at h ⊢
            cases ht : updateReportTx env d id db with
            | none => simp [ht] at h
            | some tx =>
              simp only [ht] at h ⊢
              by_cases hc : env.fail (7 + childCount d) = true
              · simp [hc] at h
              · refine ⟨id, d, rfl, rfl, by simp [h0], by simpa using hc, ?_⟩
                simp [hc, ht]

/-- The database changes in an update only when the answer is 200. -/
theorem updateReportHandler_changed (env : Env) (db : Store) (r : Request)
    (h : (updateReportHandler env db r).1 ≠ db) :
    (updateReportHandler env db r).2 = .ok () := by
  unfold updateReportHandler at h ⊢
  cases hi : r.id with
  | none => simp [hi] at h
  | some id =>
    cases hb : r.body with
    | none => simp [hi, hb] at h
    | some d =>
      simp only [hi, hb] at h ⊢
      by_cases h0 : env.fail 0 = true
      · simp [h0] at h
      simp only [h0, if_false, Bool.false_eq_true] at h ⊢
      cases hf : db.daily_reports.find? fun row => decide (row.id = id) with
      | none => simp [hf] at h
      | some existing =>
        simp only [hf] at h ⊢
        by_cases he : r.session.err = true
        · simp [he] at h
        simp only [he, if_false, Bool.false_eq_true] at h ⊢
        cases hu : r.session.user_id with
        | none => simp [hu] at h
        | some userID =>
          cases hr : r.session.role with
          | none => simp [hu, hr] at h
          | some role =>
            simp only [hu, hr] at h ⊢
            by_cases hp : existing.created_by ≠ userID ∧ role ≠ ascii "admin"
            · simp [hp] at h
            simp only [hp, if_false] at h ⊢
            cases ht : updateReportTx env d id db with
            | none => simp [ht] at h
            | some tx =>
              simp only [ht] at h ⊢
              by_cases hc : env.fail (7 + childCount d) = true
              · simp [hc] at h
              · simp [hc]

/-! ## Reading back -/

/-- A loop that tests `rows.Err()` collects all the rows of its query or fails. -/
theorem loadRows_checked {α : Type} (fault : QueryFault) (rows out : List α)
    (h : loadRows fault true rows = some out) : out = rows := by
  cases fault with
  | none => simpa [loadRows] using h.symm
  | issue => simp [loadRows] at h
  | scan k =>
    by_cases hk : k < rows.length
    · simp [loadRows, hk] at h
    · simpa [loadRows, hk] using h.symm
  | iter k => simp [loadRows] at h

/-- The root rows selected for an id carry that id. -/
theorem selectReports_id (db : Store) (id : Int)
    (row : ReportRow × UserRow × Option ShiftHoursRow)
    (h : row ∈ selectReports db fun dr => decide (dr.id = id)) : row.1.id = id := by
  simp only [selectReports, List.mem_flatMap, List.mem_filter, List.mem_map] at h
  obtain ⟨dr, ⟨_, hdr⟩, u, _, sh, _, rfl⟩ := h
  simpa using hdr

/-- A single fetch that answers 200 returns the first root row of the id
together with the complete results of its four queries. -/
theorem getReportHandler_ok (env : Env) (db : Store) (r : Request) (id : Int)
    (report : DailyReport) (hid : r.id = some id)
    (h : getReportHandler env db r = .ok report) :
    ∃ row, (selectReports db fun dr => decide (dr.id = id)).head? = some row ∧
      report = { scanReport row with
        ShiftManagers := selectShiftManagers db id,
        EventTitles := selectEventTitles db id,
        EventsPart3 := (selectPart3 db id).map scanPart3,
        EventsPart4 := (selectPart4 db id).map scanPart4 } := by
  unfold getReportHandler at h
  simp only [hid] at h
  by_cases h0 : env.fail 0 = true
  · simp [h0] at h
  simp only [h0, if_false, Bool.false_eq_true] at h
  cases hrow : (selectReports db fun dr => decide (dr.id = id)).head? with
  | none => simp [hrow] at h
  | some row =>
    have hrid : (scanReport row).ID = id :=
      selectReports_id db id row (List.mem_of_mem_head? (by simp [hrow]))
    simp only [hrow, hrid] at h
    cases h1 : loadRows (env.rows 1) true (selectShiftManagers db id) with
    | none => simp [h1] at h
    | some managers =>
      cases h2 : loadRows (env.rows 2) true (selectEventTitles db id) with
      | none => simp [h1, h2] at h
      | some titles =>
        cases h3 : loadRows (env.rows 3) true (selectPart3 db id) with
        | none => simp [h1, h2, h3] at h
        | some part3 =>
          cases h4 : loadRows (env.rows 4) true (selectPart4 db id) with
          | none => simp [h1, h2, h3, h4] at h
          | some part4 =>
            simp only [h1, h2, h3, h4, Response.ok.injEq] at h
            refine ⟨row, rfl, ?_⟩
            rw [← h, loadRows_checked _ _ _ h1, loadRows_checked _ _ _ h2,
              loadRows_checked _ _ _ h3, loadRows_checked _ _ _ h4]
            simp [hrid]

/-- Deleting the rows of an id and appending rows of that id leaves, among the
rows of the id, exactly the appended ones. -/
theorem filter_replaced {α : Type} (key : α → Int) (id : Int) (old new : List α)
    (h : ∀ row ∈ new, key row = id) :
    ((old.filter fun row => decide (key row ≠ id)) ++ new).filter
      (fun row => decide (key row = id)) = new := by
  rw [List.filter_append, List.filter_filter]
  have h1 : old.filter (fun a => decide (key a = id) && decide (key a ≠ id)) = [] := by
    rw [List.filter_eq_nil_iff]
    intro a _
    by_cases c : key a = id <;> simp [c]
  have h2 : new.filter (fun row => decide (key row = id)) = new := by
    rw [List.filter_eq_self]
    intro a ha
    simp [h a ha]
  rw [h1, h2, List.nil_append]

/-- The Part 3 rows built for a report carry its id. -/
theorem part3RowsOf_report_id (env : Env) (id : Int) :
    ∀ (xs : List EventPart3) (k : Nat), ∀ row ∈ part3RowsOf env id k xs, row.report_id = id := by
  intro xs
  induction xs with
  | nil => intro k row h; simp [part3RowsOf] at h
  | cons x xs ih =>
    intro k row h
    simp only [part3RowsOf, List.mem_cons] at h
    rcases h with rfl | h
    · rfl
    · exact ih (k + 1) row h

/-- The Part 4 rows built for a report carry its id. -/
theorem part4RowsOf_report_id (env : Env) (id : Int) :
    ∀ (xs : List EventPart4) (k : Nat), ∀ row ∈ part4RowsOf env id k xs, row.report_id = id := by
  intro xs
  induction xs with
  | nil => intro k row h; simp [part4RowsOf] at h
  | cons x xs ih =>
    intro k row h
    simp only [part4RowsOf, List.mem_cons] at h
    rcases h with rfl | h
    · rfl
    · exact ih (k + 1) row h

/-! ## Time round trip -/

/-- C1: a time of exactly five bytes (`HH:MM`) that goes through the storage
normalisation of create/update and then through the extraction of the
collection fetch comes back unchanged. -/
theorem normalize_extract_roundtrip (s : GoString) (h : s.length = 5) :
    extractTime (normalizeTime s) = s := by
  match s, h with
  | [a, b, c, d, e], _ => simp [normalizeTime, extractTime, ascii]

/-- Witness of C1 at `"08:30"`. -/
theorem normalize_extract_roundtrip_witness :
    (ascii "08:30").length = 5 ∧
      extractTime (normalizeTime (ascii "08:30")) = ascii "08:30" :=
  ⟨by decide, normalize_extract_roundtrip (ascii "08:30") (by decide)⟩

/-! ## Single fetch and stored timestamps -/

/-- C2 (the code departs from the claim): for report 1 of `sampleStore`, whose
Part 3 row stores `"1970-01-01 08:30:00"` and whose Part 4 row stores
`"1970-01-01 10:00:00"`, the single fetch returns the stored timestamps
whole, while the collection fetch returns `"08:30"` and `"10:00"` for the same
rows. -/
theorem getReportHandler_returns_stored_timestamp :
    ((getReportHandler quietEnv sampleStore (requestFor 1 none emptySession)).body?.map
        fun report => (report.EventsPart3.map (·.StartTime),
                       report.EventsPart4.map (·.StartTime)))
      = some ([ascii "1970-01-01 08:30:00"], [ascii "1970-01-01 10:00:00"]) ∧
    ((getReportsHandler quietEnv sampleStore
        { id := none, date := ascii "2024-01-02", body := none,
          session := emptySession }).body?.map
        fun reports => reports.map fun report =>
          (report.EventsPart3.map (·.StartTime), report.EventsPart4.map (·.StartTime)))
      = some [([ascii "08:30"], [ascii "10:00"])] := by
  constructor <;> decide

/-! ## Permission to update -/

/-- C3: for a request whose id and body parse, on a report found in storage
(the lookup itself not failing), with a session that holds a user id and a
role: a caller who is neither the stored creator nor an admin gets 403 and the
database is unchanged; the stored creator and an admin never get 403; and
whether the answer is 403 is the same for every submitted payload. -/
theorem update_permission (env : Env) (db : Store) (r : Request) (id : Int)
    (d : ReportData) (existing : ReportRow) (userID : Int) (role : GoString)
    (hid : r.id = some id) (hbody : r.body = some d)
    (hquery : env.fail 0 = false)
    (hrow : (db.daily_reports.find? fun row => decide (row.id = id)) = some existing)
    (hsession : r.session = { err := false, user_id := some userID, role := some role }) :
    (userID ≠ existing.created_by ∧ role ≠ ascii "admin" →
        updateReportHandler env db r = (db, .error 403)) ∧
    (userID = existing.created_by ∨ role = ascii "admin" →
        (updateReportHandler env db r).2 ≠ .error 403) ∧
    (∀ d2 : ReportData,
        (updateReportHandler env db { r with body := some d2 }).2 = .error 403 ↔
        (updateReportHandler env db r).2 = .error 403) := by
  have key : ∀ d2 : ReportData,
      (updateReportHandler env db { r with body := some d2 }).2 = .error 403 ↔
        (existing.created_by ≠ userID ∧ role ≠ ascii "admin") := by
    intro d2
    simp only [updateReportHandler, hid, hquery, hrow, hsession]
    by_cases hc : existing.created_by ≠ userID ∧ role ≠ ascii "admin"
    · simp [hc]
    · simp only [hc, if_false, Bool.false_eq_true]
      cases updateReportTx env d2 id db with
      | none => simp
      | some tx => by_cases hf : env.fail (7 + childCount d2) = true <;> simp [hf]
  have hr : { r with body := some d } = r := by
    cases r; simp_all
  have key0 := key d
  rw [hr] at key0
  refine ⟨?_, ?_, ?_⟩
  · rintro ⟨h1, h2⟩
    simp only [updateReportHandler, hid, hbody, hquery, hrow, hsession]
    simp [Ne.symm h1, h2]
  · intro h hresp
    have := key0.mp hresp
    rcases h with h | h
    · exact this.1 h.symm
    · exact this.2 h
  · intro d2
    rw [key d2, key0]

/-- Witness of C3: user 2 (not an admin) updating report 1 of user 1. -/
theorem update_permission_witness :
    updateReportHandler quietEnv sampleStore
        (requestFor 1 (some samplePayload) (sessionOf 2 "user")) =
      (sampleStore, .error 403) :=
  (update_permission quietEnv sampleStore
    (requestFor 1 (some samplePayload) (sessionOf 2 "user")) 1 samplePayload
    ⟨1, ascii "2024-01-02", some 1, true, true, false, 1, ascii "2024-01-02 09:00:00"⟩
    2 (ascii "user") rfl rfl rfl (by decide) rfl).1 ⟨by decide, by decide⟩

/-! ## Delete without checks -/

/-- C4 (the code departs from the claim): user 2, who is not an admin and did
not create report 1, deletes it: the answer is 200 and the root row and all
child rows of report 1 are gone, while the same caller's update of the same
report is refused with 403. -/
theorem deleteReportHandler_ignores_owner :
    deleteReportHandler quietEnv sampleStore (requestFor 1 none (sessionOf 2 "user")) =
      ({ sampleStore with
          daily_reports :=
            [⟨2, ascii "2024-01-03", none, true, false, true, 2, ascii "2024-01-03 09:00:00"⟩],
          report_shift_managers := [⟨2, 1⟩], report_event_titles := [],
          report_events_part3 := [], report_events_part4 := [] }, .ok ()) ∧
    (updateReportHandler quietEnv sampleStore
        (requestFor 1 (some samplePayload) (sessionOf 2 "user"))).2 = .error 403 := by
  constructor <;> decide

/-! ## Sessions without a user -/

/-- C5 (the code departs from the claim): with a session that holds no user id,
delete answers 200 and removes report 1 with its child rows, create panics
without sending a status, and only update answers 401. -/
theorem mutations_without_session :
    deleteReportHandler quietEnv sampleStore (requestFor 1 none emptySession) =
      ({ sampleStore with
          daily_reports :=
            [⟨2, ascii "2024-01-03", none, true, false, true, 2, ascii "2024-01-03 09:00:00"⟩],
          report_shift_managers := [⟨2, 1⟩], report_event_titles := [],
          report_events_part3 := [], report_events_part4 := [] }, .ok ()) ∧
    createReportHandler quietEnv sampleStore
        { id := none, date := [], body := some samplePayload, session := emptySession } =
      (sampleStore, .panicked) ∧
    updateReportHandler quietEnv sampleStore
        (requestFor 1 (some samplePayload) emptySession) = (sampleStore, .error 401) := by
  refine ⟨?_, ?_, ?_⟩ <;> decide

/-! ## Atomic writes -/

/-- C6: in a create with payload `d`, when some call `k` up to the commit fails
(call 0 is `Begin`, call 1 the root insert, calls 2 and on the manager,
event-title, Part 3 and Part 4 inserts, call `2 + childCount d` the commit), the
database after the request is the database before it; and when the failing
call comes before the commit the answer is not a 200. -/
theorem create_all_or_nothing (env : Env) (db : Store) (r : Request) (d : ReportData)
    (k : Nat) (hbody : r.body = some d) (hfail : env.fail k = true) :
    (k ≤ 2 + childCount d → (createReportHandler env db r).1 = db) ∧
    (k < 2 + childCount d → ∀ id, (createReportHandler env db r).2 ≠ .ok id) := by
  constructor
  · intro hk
    by_contra hne
    obtain ⟨d2, hb2, hok⟩ := createReportHandler_changed env db r hne
    rw [hbody] at hb2
    cases hb2
    rw [hok k hk] at hfail
    cases hfail
  · intro hk id hresp
    obtain ⟨d2, hb2, hok⟩ := createReportHandler_ok env db r id hresp
    rw [hbody] at hb2
    cases hb2
    rw [hok k hk] at hfail
    cases hfail

/-- Witness of C6: the event-title insert (call 3) of a create fails after the
root row and a manager link were written. -/
theorem create_all_or_nothing_witness :
    (createReportHandler (failAt 3) sampleStore
        { id := none, date := [], body := some samplePayload,
          session := sessionOf 2 "user" }).1 = sampleStore :=
  (create_all_or_nothing (failAt 3) sampleStore
    { id := none, date := [], body := some samplePayload, session := sessionOf 2 "user" }
    samplePayload 3 rfl (by decide)).1 (by decide)

/-! ## Full replace and cascading delete -/

/-- C7: after an update of report `id` with payload `d` that answers 200, the
rows stored for `id` in the four child tables are exactly the rows built from
`d`, in payload order (none of the former rows of `id` is left); and when `d`
has no shift managers, every later single fetch of `id` that answers 200
returns an empty manager list. -/
theorem update_full_replace (env : Env) (db : Store) (r : Request) (id : Int)
    (d : ReportData) (hid : r.id = some id) (hbody : r.body = some d)
    (hok : (updateReportHandler env db r).2 = .ok ()) :
    ((updateReportHandler env db r).1.report_shift_managers.filter
        fun row => decide (row.report_id = id)) =
      d.ShiftManagerIDs.map (fun managerID => { report_id := id, user_id := managerID }) ∧
    ((updateReportHandler env db r).1.report_event_titles.filter
        fun row => decide (row.report_id = id)) =
      d.EventTitleIDs.map (fun titleID => { report_id := id, event_title_id := titleID }) ∧
    ((updateReportHandler env db r).1.report_events_part3.filter
        fun row => decide (row.report_id = id)) =
      part3RowsOf env id (7 + d.ShiftManagerIDs.length + d.EventTitleIDs.length)
        d.EventsPart3 ∧
    ((updateReportHandler env db r).1.report_events_part4.filter
        fun row => decide (row.report_id = id)) =
      part4RowsOf env id
        (7 + d.ShiftManagerIDs.length + d.EventTitleIDs.length + d.EventsPart3.length)
        d.EventsPart4 ∧
    (d.ShiftManagerIDs = [] → ∀ (env2 : Env) (r2 : Request) (report : DailyReport),
        r2.id = some id →
        getReportHandler env2 (updateReportHandler env db r).1 r2 = .ok report →
        report.ShiftManagers = []) := by
  obtain ⟨id2, d2, hi2, hb2, _, _, htx⟩ := updateReportHandler_ok env db r hok
  rw [hid] at hi2
  rw [hbody] at hb2
  cases hi2
  cases hb2
  have hres := insertChildren_result env id d 7 _ _ (updateReportTx_some env d id db _ htx).2
  have hm : ((updateReportHandler env db r).1.report_shift_managers.filter
        fun row => decide (row.report_id = id)) =
      d.ShiftManagerIDs.map (fun managerID => { report_id := id, user_id := managerID }) := by
    rw [hres]
    simp only [deletePart4, deletePart3, deleteEventTitles, deleteShiftManagers, updateReport]
    apply filter_replaced (fun row : ShiftManagerRow => row.report_id)
    intro row hrow
    simp only [List.mem_map] at hrow
    obtain ⟨_, _, rfl⟩ := hrow
    rfl
  refine ⟨hm, ?_, ?_, ?_, ?_⟩
  · rw [hres]
    simp only [deletePart4, deletePart3, deleteEventTitles, deleteShiftManagers, updateReport]
    apply filter_replaced (fun row : ReportEventTitleRow => row.report_id)
    intro row hrow
    simp only [List.mem_map] at hrow
    obtain ⟨_, _, rfl⟩ := hrow
    rfl
  · rw [hres]
    simp only [deletePart4, deletePart3, deleteEventTitles, deleteShiftManagers, updateReport]
    exact filter_replaced (fun row : Part3Row => row.report_id) id _ _
      (part3RowsOf_report_id env id _ _)
  · rw [hres]
    simp only [deletePart4, deletePart3, deleteEventTitles, deleteShiftManagers, updateReport]
    exact filter_replaced (fun row : Part4Row => row.report_id) id _ _
      (part4RowsOf_report_id env id _ _)
  · intro hempty env2 r2 report hid2 hfetch
    obtain ⟨row, _, hrep⟩ := getReportHandler_ok env2 _ r2 id report hid2 hfetch
    rw [hrep]
    simp only [selectShiftManagers]
    rw [hm, hempty]
    rfl

/-- Witness of C7: user 1 updates report 1 with a payload without managers; the
update answers 200 and the next fetch of report 1 shows no manager. -/
theorem update_full_replace_witness :
    (updateReportHandler quietEnv sampleStore
        (requestFor 1 (some noManagerPayload) (sessionOf 1 "user"))).2 = .ok () ∧
    ((updateReportHandler quietEnv sampleStore
        (requestFor 1 (some noManagerPayload) (sessionOf 1 "user"))).1.report_shift_managers.filter
        fun row => decide (row.report_id = 1)) = [] ∧
    ((getReportHandler quietEnv
        (updateReportHandler quietEnv sampleStore
          (requestFor 1 (some noManagerPayload) (sessionOf 1 "user"))).1
        (requestFor 1 none emptySession)).body?.map fun report => report.ShiftManagers) =
      some [] :=
  ⟨by decide,
   (update_full_replace quietEnv sampleStore
      (requestFor 1 (some noManagerPayload) (sessionOf 1 "user")) 1 noManagerPayload
      rfl rfl (by decide)).1,
   by decide⟩

/-- C8: after a delete of report `id` all of whose calls succeed, the commit
included, the database holds no root row of `id` and no row of `id` in any of
the four child tables, the answer is 200, and a later single fetch of `id`
whose root query meets no storage fault answers 404. -/
theorem delete_removes_report (env : Env) (db : Store) (r : Request) (id : Int)
    (hid : r.id = some id) (hcommit : ∀ j, j ≤ 6 → env.fail j = false) :
    (deleteReportHandler env db r).2 = .ok () ∧
    (∀ row ∈ (deleteReportHandler env db r).1.daily_reports, row.id ≠ id) ∧
    (∀ row ∈ (deleteReportHandler env db r).1.report_shift_managers, row.report_id ≠ id) ∧
    (∀ row ∈ (deleteReportHandler env db r).1.report_event_titles, row.report_id ≠ id) ∧
    (∀ row ∈ (deleteReportHandler env db r).1.report_events_part3, row.report_id ≠ id) ∧
    (∀ row ∈ (deleteReportHandler env db r).1.report_events_part4, row.report_id ≠ id) ∧
    (∀ (env2 : Env) (r2 : Request), r2.id = some id → env2.fail 0 = false →
        getReportHandler env2 (deleteReportHandler env db r).1 r2 = .error 404) := by
  have hdel : deleteReportHandler env db r =
      (deleteReport id (deletePart4 id (deletePart3 id (deleteEventTitles id
        (deleteShiftManagers id db)))), .ok ()) := by
    simp only [deleteReportHandler, hid, Option.getD_some]
    rw [deleteReportTx_of_ok env id db (fun j hj => hcommit j (by omega))]
    simp [hcommit 6 (by omega)]
  rw [hdel]
  have hroot : ∀ row ∈ (deleteReport id (deletePart4 id (deletePart3 id (deleteEventTitles id
      (deleteShiftManagers id db))))).daily_reports, row.id ≠ id := by
    intro row hrow
    simp only [deleteReport, deletePart4, deletePart3, deleteEventTitles, deleteShiftManagers,
      List.mem_filter] at hrow
    simpa using hrow.2
  refine ⟨rfl, hroot, ?_, ?_, ?_, ?_, ?_⟩
  · intro row hrow
    simp only [deleteReport, deletePart4, deletePart3, deleteEventTitles, deleteShiftManagers,
      List.mem_filter] at hrow
    simpa using hrow.2
  · intro row hrow
    simp only [deleteReport, deletePart4, deletePart3, deleteEventTitles, deleteShiftManagers,
      List.mem_filter] at hrow
    simpa using hrow.2
  · intro row hrow
    simp only [deleteReport, deletePart4, deletePart3, deleteEventTitles, deleteShiftManagers,
      List.mem_filter] at hrow
    simpa using hrow.2
  · intro row hrow
    simp only [deleteReport, deletePart4, deletePart3, deleteEventTitles, deleteShiftManagers,
      List.mem_filter] at hrow
    simpa using hrow.2
  · intro env2 r2 hid2 h0
    have hnone : (selectReports (deleteReport id (deletePart4 id (deletePart3 id
        (deleteEventTitles id (deleteShiftManagers id db)))))
        fun dr => decide (dr.id = id)) = [] := by
      have hf : (deleteReport id (deletePart4 id (deletePart3 id (deleteEventTitles id
          (deleteShiftManagers id db))))).daily_reports.filter
          (fun dr => decide (dr.id = id)) = [] := by
        rw [List.filter_eq_nil_iff]
        intro row hrow
        simpa using hroot row hrow
      simp only [selectReports, hf, List.flatMap_nil]
    simp [getReportHandler, hid2, h0, hnone]

/-- Witness of C8: report 1 of the sample database is deleted without faults. -/
theorem delete_removes_report_witness :
    (deleteReportHandler quietEnv sampleStore (requestFor 1 none (sessionOf 1 "user"))).2 =
      .ok () ∧
    getReportHandler quietEnv
        (deleteReportHandler quietEnv sampleStore
          (requestFor 1 none (sessionOf 1 "user"))).1
        (requestFor 1 none emptySession) = .error 404 :=
  have h := delete_removes_report quietEnv sampleStore
    (requestFor 1 none (sessionOf 1 "user")) 1 rfl (fun _ _ => rfl)
  ⟨h.1, h.2.2.2.2.2.2 quietEnv (requestFor 1 none emptySession) rfl rfl⟩

/-! ## Failure of update and delete -/

/-- C9: when some call `k` of an update with payload `d` fails, up to and
including the commit (call `7 + childCount d`), or some call of a delete fails
(`Begin`, the four child deletes, the root delete, the commit: calls 0 to 6),
the database after the request is the database before it. -/
theorem update_delete_atomic (env : Env) (db : Store) (r : Request) (k : Nat)
    (hfail : env.fail k = true) :
    (∀ d, r.body = some d → k ≤ 7 + childCount d →
        (updateReportHandler env db r).1 = db) ∧
    (k ≤ 6 → (deleteReportHandler env db r).1 = db) := by
  constructor
  · intro d hbody hk
    by_contra hne
    obtain ⟨id, d2, _, hb2, h0, hc, htx⟩ :=
      updateReportHandler_ok env db r (updateReportHandler_changed env db r hne)
    rw [hbody] at hb2
    cases hb2
    have hcalls := (updateReportTx_some env d id db _ htx).1
    have : env.fail k = false := by
      by_cases c0 : k = 0
      · subst c0; exact h0
      by_cases c1 : k = 7 + childCount d
      · subst c1; exact hc
      exact hcalls k (by omega) (by omega)
    rw [this] at hfail
    cases hfail
  · intro hk
    simp only [deleteReportHandler]
    cases ht : deleteReportTx env (r.id.getD 0) db with
    | none => rfl
    | some tx =>
      by_cases hc : env.fail 6 = true
      · simp [hc]
      · have hcalls := (deleteReportTx_some env _ db tx ht).1
        have : env.fail k = false := by
          by_cases c6 : k = 6
          · subst c6; simpa using hc
          · exact hcalls k (by omega)
        rw [this] at hfail
        cases hfail

/-- Witness of C9: the Part 3 re-insert (call 9) of an update fails after the
root update and the four deletes, and the root delete (call 5) of a delete
fails after the four child deletes. -/
theorem update_delete_atomic_witness :
    (updateReportHandler (failAt 9) sampleStore
        (requestFor 1 (some samplePayload) (sessionOf 1 "user"))).1 = sampleStore ∧
    (deleteReportHandler (failAt 5) sampleStore
        (requestFor 1 (some samplePayload) (sessionOf 1 "user"))).1 = sampleStore :=
  ⟨(update_delete_atomic (failAt 9) sampleStore
      (requestFor 1 (some samplePayload) (sessionOf 1 "user")) 9 (by decide)).1
      samplePayload rfl (by decide),
   (update_delete_atomic (failAt 5) sampleStore
      (requestFor 1 (some samplePayload) (sessionOf 1 "user")) 5 (by decide)).2
      (by decide)⟩

/-! ## Commit errors -/

/-- C10 (the code departs from the claim): when only the commit fails, create
still answers 200 with id 101 and delete still answers 200, although the
database is unchanged (nothing stored, nothing removed); update answers 500. -/
theorem commit_error_ignored :
    createReportHandler (failAt 6) sampleStore
        { id := none, date := [], body := some samplePayload,
          session := sessionOf 2 "user" } = (sampleStore, .ok 101) ∧
    deleteReportHandler (failAt 6) sampleStore (requestFor 1 none (sessionOf 1 "user")) =
      (sampleStore, .ok ()) ∧
    updateReportHandler (failAt 11) sampleStore
        (requestFor 1 (some samplePayload) (sessionOf 1 "user")) =
      (sampleStore, .error 500) := by
  refine ⟨?_, ?_, ?_⟩ <;> decide

/-! ## Stored and displayed times -/

/-- The normalisation of the handlers is the storage form of the specification. -/
theorem normalizeTime_eq_canonicalTime (s : GoString) : normalizeTime s = canonicalTime s := by
  cases s with
  | nil => simp [normalizeTime, canonicalTime]
  | cons a s =>
    by_cases h : 5 < (a :: s).length
    · have h2 : ¬ (a :: s).length ≤ 5 := by omega
      simp only [normalizeTime, canonicalTime, h, h2, and_false, if_false, if_true]
    · have h2 : (a :: s).length ≤ 5 := by omega
      simp only [normalizeTime, canonicalTime, h, h2, if_false]
      simp

/-- The two times of the Part 3 rows built from a payload. -/
theorem part3RowsOf_times (env : Env) (id : Int) :
    ∀ (xs : List EventPart3) (k : Nat),
      (part3RowsOf env id k xs).map (fun row => (row.start_time, row.end_time)) =
        xs.map fun e => (some (normalizeTime e.StartTime), some (normalizeTime e.EndTime)) := by
  intro xs
  induction xs with
  | nil => intro k; rfl
  | cons x xs ih => intro k; simp only [part3RowsOf, List.map_cons, ih (k + 1)]

/-- The two times of the Part 4 rows built from a payload. -/
theorem part4RowsOf_times (env : Env) (id : Int) :
    ∀ (xs : List EventPart4) (k : Nat),
      (part4RowsOf env id k xs).map (fun row => (row.start_time, row.end_time)) =
        xs.map fun e => (some (normalizeTime e.StartTime), some (normalizeTime e.EndTime)) := by
  intro xs
  induction xs with
  | nil => intro k; rfl
  | cons x xs ih => intro k; simp only [part4RowsOf, List.map_cons, ih (k + 1)]

/-- A create that answers 200 and whose commit succeeds leaves the database
extended by the root row of the caller and the child rows built from the
payload. -/
theorem createReportHandler_stored (env : Env) (db : Store) (r : Request) (d : ReportData)
    (id : Int) (hbody : r.body = some d)
    (hok : (createReportHandler env db r).2 = .ok id)
    (hcommit : env.fail (2 + childCount d) = false) :
    ∃ userID, r.session.user_id = some userID ∧ id = env.newID 1 ∧
      (createReportHandler env db r).1 =
        { db with
          daily_reports := db.daily_reports ++
            [{ id := id, report_date := d.ReportDate, shift_hours_id := d.ShiftHoursID,
               health_power_sources := d.HealthPowerSources,
               health_humidity_temp := d.HealthHumidityTemp,
               health_fire_system := d.HealthFireSystem,
               created_by := userID, created_at := env.createdAt }],
          report_shift_managers := db.report_shift_managers ++
            d.ShiftManagerIDs.map (fun managerID => { report_id := id, user_id := managerID }),
          report_event_titles := db.report_event_titles ++
            d.EventTitleIDs.map (fun titleID => { report_id := id, event_title_id := titleID }),
          report_events_part3 := db.report_events_part3 ++
            part3RowsOf env id (2 + d.ShiftManagerIDs.length + d.EventTitleIDs.length)
              d.EventsPart3,
          report_events_part4 := db.report_events_part4 ++
            part4RowsOf env id
              (2 + d.ShiftManagerIDs.length + d.EventTitleIDs.length + d.EventsPart3.length)
              d.EventsPart4 } := by
  unfold createReportHandler at hok ⊢
  cases hu : r.session.user_id with
  | none => simp [hu] at hok
  | some userID =>
    simp only [hu, hbody] at hok ⊢
    cases ht : createReportTx env d userID db with
    | none => simp [ht] at hok
    | some out =>
      obtain ⟨tx, rid⟩ := out
      simp only [ht, Response.ok.injEq] at hok ⊢
      subst hok
      unfold createReportTx at ht
      by_cases h0 : env.fail 0 = true
      · simp [h0] at ht
      by_cases h1 : env.fail 1 = true
      · simp [h0, h1] at ht
      simp only [h0, h1, if_false, Bool.false_eq_true] at ht
      cases hc : insertChildren env (env.newID 1) d 2
          (insertReport (env.newID 1) env.createdAt d userID db) with
      | none => simp [hc] at ht
      | some tx2 =>
        simp only [hc, Option.some.injEq, Prod.mk.injEq] at ht
        obtain ⟨htx, hid⟩ := ht
        subst htx
        subst hid
        refine ⟨userID, rfl, rfl, ?_⟩
        simp only [hcommit, if_false, Bool.false_eq_true]
        rw [insertChildren_result env _ d 2 _ _ hc]
        simp [insertReport]

/-- A loop that does not test `rows.Err()` collects a first part of the rows of
its query, or fails. -/
theorem loadRows_unchecked {α : Type} (fault : QueryFault) (rows out : List α)
    (h : loadRows fault false rows = some out) : ∃ n, out = rows.take n := by
  cases fault with
  | none => exact ⟨rows.length, by simpa [loadRows] using h.symm⟩
  | issue => simp [loadRows] at h
  | scan k =>
    by_cases hk : k < rows.length
    · simp [loadRows, hk] at h
    · exact ⟨rows.length, by simpa [loadRows, hk] using h.symm⟩
  | iter k => exact ⟨k, by simpa [loadRows] using h.symm⟩

/-- The aggregate built by one turn of the outer loop of the collection fetch. -/
theorem loadReport_some (env : Env) (db : Store) (k : Nat)
    (row : ReportRow × UserRow × Option ShiftHoursRow) (report : DailyReport)
    (h : loadReport env db k row = some report) :
    ∃ n1 n2 n4, report = collectedReport db row n1 n2 n4 := by
  simp only [loadReport, Option.bind_eq_bind, Option.bind_eq_some, Option.pure_def,
    Option.some.injEq] at h
  obtain ⟨managers, h1, titles, h2, part3, h3, part4, h4, hrep⟩ := h
  obtain ⟨n1, rfl⟩ := loadRows_unchecked _ _ _ h1
  obtain ⟨n2, rfl⟩ := loadRows_unchecked _ _ _ h2
  have h3 := loadRows_checked _ _ _ h3
  subst h3
  obtain ⟨n4, rfl⟩ := loadRows_unchecked _ _ _ h4
  exact ⟨n1, n2, n4, hrep.symm⟩

/-- Every aggregate returned by the outer loop of the collection fetch is
built from one of the root rows. -/
theorem loadReports_mem (env : Env) (db : Store) :
    ∀ (rows : List (ReportRow × UserRow × Option ShiftHoursRow)) (k : Nat)
      (reports : List DailyReport), loadReports env db k rows = some reports →
      ∀ report ∈ reports, ∃ row ∈ rows, ∃ n1 n2 n4,
        report = collectedReport db row n1 n2 n4 := by
  intro rows
  induction rows with
  | nil =>
    intro k reports h report hmem
    simp only [loadReports, Option.some.injEq] at h
    subst h
    simp at hmem
  | cons row rest ih =>
    intro k reports h report hmem
    simp only [loadReports, Option.bind_eq_bind, Option.bind_eq_some, Option.pure_def,
      Option.some.injEq] at h
    obtain ⟨first, h1, others, h2, rfl⟩ := h
    rcases List.mem_cons.mp hmem with rfl | hmem
    · obtain ⟨n1, n2, n4, hrep⟩ := loadReport_some env db k row _ h1
      exact ⟨row, List.mem_cons_self _ _, n1, n2, n4, hrep⟩
    · obtain ⟨row2, hrow2, hrest⟩ := ih (k + 4) others h2 report hmem
      exact ⟨row2, List.mem_cons_of_mem _ hrow2, hrest⟩

/-- The aggregates returned by the outer loop of the collection fetch carry,
in order, the id, date and creation time of the root rows. -/
theorem loadReports_roots (env : Env) (db : Store) :
    ∀ (rows : List (ReportRow × UserRow × Option ShiftHoursRow)) (k : Nat)
      (reports : List DailyReport), loadReports env db k rows = some reports →
      reports.map (fun report => (report.ID, report.ReportDate, report.CreatedAt)) =
        rows.map (fun row => (row.1.id, row.1.report_date, row.1.created_at)) := by
  intro rows
  induction rows with
  | nil =>
    intro k reports h
    simp only [loadReports, Option.some.injEq] at h
    subst h
    rfl
  | cons row rest ih =>
    intro k reports h
    simp only [loadReports, Option.bind_eq_bind, Option.bind_eq_some, Option.pure_def,
      Option.some.injEq] at h
    obtain ⟨first, h1, others, h2, rfl⟩ := h
    obtain ⟨n1, n2, n4, hrep⟩ := loadReport_some env db k row _ h1
    simp only [List.map_cons, ih (k + 4) others h2]
    rw [hrep]
    rfl

/-- A collection fetch that answers 200 has read all the root rows of its
query, in the order of the query. -/
theorem getReportsHandler_ok (env : Env) (db : Store) (r : Request)
    (reports : List DailyReport) (h : getReportsHandler env db r = .ok reports) :
    loadReports env db 1 (orderBy reportBefore
      (selectReports db fun dr => r.date == [] || dr.report_date == r.date)) =
        some reports := by
  unfold getReportsHandler at h
  dsimp only at h
  split at h
  · cases h
  · rename_i rows h0
    have hrows := loadRows_checked _ _ _ h0
    subst hrows
    split at h
    · cases h
    · rename_i reps h1
      cases h
      exact h1

/-! ## Order of rows -/

/-- Bytes are compared as numbers. -/
theorem byte_lt_iff (a b : UInt8) : a < b ↔ a.toNat < b.toNat := by
  simp [UInt8.lt_def, BitVec.lt_def, UInt8.toNat]

/-- Two bytes are equal or one is less than the other. -/
theorem byte_trichotomy (a b : UInt8) : a < b ∨ a = b ∨ b < a := by
  rcases Nat.lt_trichotomy a.toNat b.toNat with h | h | h
  · exact Or.inl ((byte_lt_iff a b).mpr h)
  · exact Or.inr (Or.inl (UInt8.toNat.inj h))
  · exact Or.inr (Or.inr ((byte_lt_iff b a).mpr h))

/-- No string is less than itself. -/
theorem strLess_irrefl : ∀ s : GoString, strLess s s = false := by
  intro s
  induction s with
  | nil => rfl
  | cons a s ih => simp [strLess, ih]

/-- The order on strings is transitive. -/
theorem strLess_trans : ∀ s t u : GoString,
    strLess s t = true → strLess t u = true → strLess s u = true := by
  intro s
  induction s with
  | nil =>
    intro t u h1 h2
    cases t with
    | nil => simp [strLess] at h1
    | cons b t =>
      cases u with
      | nil => simp [strLess] at h2
      | cons c u => rfl
  | cons a s ih =>
    intro t u h1 h2
    cases t with
    | nil => simp [strLess] at h1
    | cons b t =>
      cases u with
      | nil => simp [strLess] at h2
      | cons c u =>
        simp only [strLess, Bool.or_eq_true, decide_eq_true_eq, Bool.and_eq_true,
          beq_iff_eq] at h1 h2 ⊢
        rcases h1 with h1 | ⟨rfl, h1⟩
        · rcases h2 with h2 | ⟨rfl, h2⟩
          · exact Or.inl (UInt8.lt_trans h1 h2)
          · exact Or.inl h1
        · rcases h2 with h2 | ⟨rfl, h2⟩
          · exact Or.inl h2
          · exact Or.inr ⟨rfl, ih t u h1 h2⟩

/-- Two strings are equal or one is less than the other. -/
theorem strLess_total : ∀ s t : GoString,
    strLess s t = true ∨ s = t ∨ strLess t s = true := by
  intro s
  induction s with
  | nil =>
    intro t
    cases t with
    | nil => exact Or.inr (Or.inl rfl)
    | cons b t => exact Or.inl rfl
  | cons a s ih =>
    intro t
    cases t with
    | nil => exact Or.inr (Or.inr rfl)
    | cons b t =>
      simp only [strLess, Bool.or_eq_true, decide_eq_true_eq, Bool.and_eq_true, beq_iff_eq,
        List.cons.injEq]
      rcases byte_trichotomy a b with h | rfl | h
      · exact Or.inl (Or.inl h)
      · rcases ih t with h | rfl | h
        · exact Or.inl (Or.inr ⟨rfl, h⟩)
        · exact Or.inr (Or.inl ⟨rfl, rfl⟩)
        · exact Or.inr (Or.inr (Or.inr ⟨rfl, h⟩))
      · exact Or.inr (Or.inr (Or.inl h))

/-- The insertion of the sort is the ordered insertion of the library. -/
theorem insertBy_eq {α : Type} (before : α → α → Bool) (x : α) (l : List α) :
    insertBy before x l = List.orderedInsert (fun a b => before a b = true) x l := by
  induction l with
  | nil => rfl
  | cons y ys ih => simp only [insertBy, List.orderedInsert, ih]

/-- The sort of the queries is the insertion sort of the library. -/
theorem orderBy_eq {α : Type} (before : α → α → Bool) (l : List α) :
    orderBy before l = List.insertionSort (fun a b => before a b = true) l := by
  induction l with
  | nil => rfl
  | cons y ys ih => simp only [orderBy, List.insertionSort, ih, insertBy_eq]

/-- Sorting permutes the rows. -/
theorem orderBy_perm {α : Type} (before : α → α → Bool) (l : List α) :
    (orderBy before l).Perm l := by
  rw [orderBy_eq]
  exact List.perm_insertionSort _ l

/-- Sorting rows that are already in order changes nothing. -/
theorem orderBy_of_sorted {α : Type} (before : α → α → Bool) (l : List α)
    (h : l.Pairwise fun a b => before a b = true) : orderBy before l = l := by
  rw [orderBy_eq]
  exact List.Sorted.insertionSort_eq h

/-- Sorting by a total and transitive order puts the rows in order. -/
theorem orderBy_sorted {α : Type} (before : α → α → Bool)
    (htotal : ∀ a b, before a b = true ∨ before b a = true)
    (htrans : ∀ a b c, before a b = true → before b c = true → before a c = true)
    (l : List α) : (orderBy before l).Pairwise fun a b => before a b = true := by
  rw [orderBy_eq]
  haveI : IsTotal α (fun a b => before a b = true) := ⟨htotal⟩
  haveI : IsTrans α (fun a b => before a b = true) := ⟨htrans⟩
  exact List.sorted_insertionSort _ l

/-- The order of the collection query in terms of date and creation time. -/
theorem reportBefore_iff (a b : ReportRow × UserRow × Option ShiftHoursRow) :
    reportBefore a b = true ↔
      (strLess b.1.report_date a.1.report_date = true ∨
        (a.1.report_date = b.1.report_date ∧
          strLess a.1.created_at b.1.created_at = false)) := by
  simp [reportBefore]

/-- The order of the collection query is total. -/
theorem reportBefore_total (a b : ReportRow × UserRow × Option ShiftHoursRow) :
    reportBefore a b = true ∨ reportBefore b a = true := by
  rw [reportBefore_iff, reportBefore_iff]
  rcases strLess_total a.1.report_date b.1.report_date with h | h | h
  · exact Or.inr (Or.inl h)
  · cases hc : strLess a.1.created_at b.1.created_at with
    | false => exact Or.inl (Or.inr ⟨h, rfl⟩)
    | true =>
      refine Or.inr (Or.inr ⟨h.symm, ?_⟩)
      cases hc2 : strLess b.1.created_at a.1.created_at with
      | false => rfl
      | true =>
        have := strLess_trans _ _ _ hc hc2
        rw [strLess_irrefl] at this
        cases this
  · exact Or.inl (Or.inl h)

/-- The order of the collection query is transitive. -/
theorem reportBefore_trans (a b c : ReportRow × UserRow × Option ShiftHoursRow)
    (h1 : reportBefore a b = true) (h2 : reportBefore b c = true) :
    reportBefore a c = true := by
  rw [reportBefore_iff] at h1 h2 ⊢
  rcases h1 with h1 | ⟨e1, h1⟩
  · rcases h2 with h2 | ⟨e2, h2⟩
    · exact Or.inl (strLess_trans _ _ _ h2 h1)
    · rw [← e2]; exact Or.inl h1
  · rcases h2 with h2 | ⟨e2, h2⟩
    · rw [e1]; exact Or.inl h2
    · refine Or.inr ⟨e1.trans e2, ?_⟩
      cases hac : strLess a.1.created_at c.1.created_at with
      | false => rfl
      | true =>
        rcases strLess_total b.1.created_at a.1.created_at with h | h | h
        · have := strLess_trans _ _ _ h hac
          rw [h2] at this
          cases this
        · rw [h, hac] at h2
          cases h2
        · rw [h1] at h
          cases h

/-! ## Joins -/

/-- A key that occurs in a table with unique keys selects exactly one row. -/
theorem filter_key_unique {α : Type} (key : α → Int) :
    ∀ (l : List α), (l.map key).Nodup → ∀ m, m ∈ l.map key →
      ∃ x, l.filter (fun y => decide (key y = m)) = [x] ∧ key x = m := by
  intro l
  induction l with
  | nil => intro _ m hm; simp at hm
  | cons y ys ih =>
    intro hnd m hm
    simp only [List.map_cons, List.nodup_cons] at hnd
    by_cases hy : key y = m
    · refine ⟨y, ?_, hy⟩
      have hnone : ys.filter (fun z => decide (key z = m)) = [] := by
        rw [List.filter_eq_nil_iff]
        intro z hz hkey
        apply hnd.1
        rw [hy]
        simp only [decide_eq_true_eq] at hkey
        rw [← hkey]
        exact List.mem_map_of_mem key hz
      simp [List.filter_cons, hy, hnone]
    · have hm2 : m ∈ ys.map key := by
        simp only [List.map_cons, List.mem_cons] at hm
        rcases hm with h | h
        · exact absurd h.symm hy
        · exact h
      obtain ⟨x, hx, hkx⟩ := ih hnd.2 m hm2
      exact ⟨x, by simp [List.filter_cons, hy, hx], hkx⟩

/-- A key selects at most one row of a table with unique keys. -/
theorem filter_key_le_one {α : Type} (key : α → Int) (l : List α)
    (hnd : (l.map key).Nodup) (m : Int) :
    l.filter (fun y => decide (key y = m)) = [] ∨
      ∃ x, l.filter (fun y => decide (key y = m)) = [x] ∧ key x = m := by
  by_cases hm : m ∈ l.map key
  · exact Or.inr (filter_key_unique key l hnd m hm)
  · left
    rw [List.filter_eq_nil_iff]
    intro z hz hkey
    apply hm
    simp only [decide_eq_true_eq] at hkey
    rw [← hkey]
    exact List.mem_map_of_mem key hz

/-- A join that gives each row one partner keeps the rows as they are. -/
theorem flatMap_map_single {α β : Type} (f : α → List β) (g : β → α) :
    ∀ l : List α, (∀ x ∈ l, (f x).map g = [x]) → (l.flatMap f).map g = l := by
  intro l
  induction l with
  | nil => intro _; rfl
  | cons x xs ih =>
    intro h
    rw [List.flatMap_cons, List.map_append, h x (List.mem_cons_self _ _),
      ih fun y hy => h y (List.mem_cons_of_mem _ hy)]
    rfl

/-- The left join with `shift_hours` gives a report row exactly one partner
when the shift ids are unique. -/
theorem joinShiftHours_single (db : Store) (dr : ReportRow)
    (hnd : (db.shift_hours.map fun sh => sh.id).Nodup) :
    ∃ sh, joinShiftHours db dr = [sh] := by
  unfold joinShiftHours
  cases hid : dr.shift_hours_id with
  | none =>
    have : db.shift_hours.filter (fun sh => decide (some sh.id = none)) = [] := by
      rw [List.filter_eq_nil_iff]
      intro a _
      simp
    rw [this]
    exact ⟨none, rfl⟩
  | some k =>
    have hcongr : db.shift_hours.filter (fun sh => decide (some sh.id = some k)) =
        db.shift_hours.filter (fun sh => decide (sh.id = k)) := by
      apply List.filter_congr
      intro a _
      simp
    rw [hcongr]
    rcases filter_key_le_one (fun sh : ShiftHoursRow => sh.id) db.shift_hours hnd k with h | h
    · rw [h]
      exact ⟨none, rfl⟩
    · obtain ⟨x, hx, _⟩ := h
      rw [hx]
      exact ⟨some x, rfl⟩

/-- Under the constraints of the schema the root query returns each selected
report row once. -/
theorem selectReports_roots (db : Store) (hdb : db.consistent) (cond : ReportRow → Bool) :
    (selectReports db cond).map (fun row => row.1) = db.daily_reports.filter cond := by
  unfold selectReports
  apply flatMap_map_single
  intro dr hdr
  have hmem : dr ∈ db.daily_reports := (List.mem_filter.mp hdr).1
  obtain ⟨u, hu, _⟩ := filter_key_unique (fun u : UserRow => u.id) db.users hdb.1
    dr.created_by (hdb.2.2.2 dr hmem)
  have hcongr : db.users.filter (fun u => decide (dr.created_by = u.id)) =
      db.users.filter (fun u => decide (u.id = dr.created_by)) := by
    apply List.filter_congr
    intro a _
    simp [eq_comm]
  obtain ⟨sh, hsh⟩ := joinShiftHours_single db dr hdb.2.1
  rw [hcongr, hu, hsh]
  rfl

/-! ## Reading back what was written -/

/-- The rows of the root query, one condition at a time. -/
theorem selectReports_mem (db : Store) (cond : ReportRow → Bool)
    (row : ReportRow × UserRow × Option ShiftHoursRow) :
    row ∈ selectReports db cond ↔
      row.1 ∈ db.daily_reports ∧ cond row.1 = true ∧ row.2.1 ∈ db.users ∧
        row.1.created_by = row.2.1.id ∧ row.2.2 ∈ joinShiftHours db row.1 := by
  obtain ⟨dr, u, sh⟩ := row
  simp only [selectReports, List.mem_flatMap, List.mem_filter, List.mem_map, Prod.mk.injEq,
    decide_eq_true_eq]
  constructor
  · rintro ⟨dr2, ⟨h1, h2⟩, u2, ⟨h3, h4⟩, sh2, h5, rfl, rfl, rfl⟩
    exact ⟨h1, h2, h3, h4, h5⟩
  · rintro ⟨h1, h2, h3, h4, h5⟩
    exact ⟨dr, ⟨h1, h2⟩, u, ⟨h3, h4⟩, sh, h5, rfl, rfl, rfl⟩

/-- The partner that the left join gives to a report row whose shift-hours
reference is valid carries the referenced id. -/
theorem joinShiftHours_ref (db : Store) (dr : ReportRow)
    (hnd : (db.shift_hours.map fun sh => sh.id).Nodup)
    (hvalid : ∀ k, dr.shift_hours_id = some k → k ∈ db.shift_hours.map fun sh => sh.id)
    (sh : Option ShiftHoursRow) (hsh : sh ∈ joinShiftHours db dr) :
    sh.map (fun s => s.id) = dr.shift_hours_id := by
  unfold joinShiftHours at hsh
  cases hid : dr.shift_hours_id with
  | none =>
    have : db.shift_hours.filter (fun s => decide (some s.id = none)) = [] := by
      rw [List.filter_eq_nil_iff]
      intro a _
      simp
    rw [hid, this] at hsh
    simp only [List.mem_singleton] at hsh
    rw [hsh]
    rfl
  | some k =>
    have hcongr : db.shift_hours.filter (fun s => decide (some s.id = some k)) =
        db.shift_hours.filter (fun s => decide (s.id = k)) := by
      apply List.filter_congr
      intro a _
      simp
    obtain ⟨x, hx, hkx⟩ := filter_key_unique (fun s : ShiftHoursRow => s.id) db.shift_hours
      hnd k (hvalid k hid)
    rw [hid, hcongr, hx] at hsh
    simp only [List.map_cons, List.map_nil, List.mem_singleton] at hsh
    rw [hsh]
    simp [hkx]

/-- Appending rows of an id to a table that has none leaves, among the rows of
the id, exactly the appended ones. -/
theorem filter_fresh_append {α : Type} (key : α → Int) (id : Int) (old new : List α)
    (hold : ∀ row ∈ old, key row ≠ id) (hnew : ∀ row ∈ new, key row = id) :
    (old ++ new).filter (fun row => decide (key row = id)) = new := by
  rw [List.filter_append]
  have h1 : old.filter (fun row => decide (key row = id)) = [] := by
    rw [List.filter_eq_nil_iff]
    intro a ha
    simpa using hold a ha
  have h2 : new.filter (fun row => decide (key row = id)) = new := by
    rw [List.filter_eq_self]
    intro a ha
    simp [hnew a ha]
  rw [h1, h2, List.nil_append]

/-- The managers read for a report carry, in the order of its links, the user
ids of these links, when every link refers to a user. -/
theorem selectShiftManagers_user_ids (db : Store) (id : Int)
    (hnd : (db.users.map fun u => u.id).Nodup)
    (hvalid : ∀ rsm ∈ db.report_shift_managers.filter (fun rsm => decide (rsm.report_id = id)),
      rsm.user_id ∈ db.users.map fun u => u.id) :
    (selectShiftManagers db id).map (fun u => u.ID) =
      (db.report_shift_managers.filter fun rsm => decide (rsm.report_id = id)).map
        fun rsm => rsm.user_id := by
  unfold selectShiftManagers
  generalize (db.report_shift_managers.filter fun rsm => decide (rsm.report_id = id)) = links
    at hvalid ⊢
  induction links with
  | nil => rfl
  | cons rsm links ih =>
    obtain ⟨u, hu, hku⟩ := filter_key_unique (fun u : UserRow => u.id) db.users hnd rsm.user_id
      (hvalid rsm (List.mem_cons_self _ _))
    rw [List.flatMap_cons, List.map_append, List.map_cons,
      ih fun x hx => hvalid x (List.mem_cons_of_mem _ hx)]
    simp only [hu, List.map_cons, List.map_nil, List.singleton_append, List.cons.injEq,
      and_true]
    exact hku

/-- The titles read for a report carry, in the order of its links, the title
ids of these links, when every link refers to an event title. -/
theorem selectEventTitles_title_ids (db : Store) (id : Int)
    (hnd : (db.event_titles.map fun et => et.id).Nodup)
    (hvalid : ∀ ret ∈ db.report_event_titles.filter (fun ret => decide (ret.report_id = id)),
      ret.event_title_id ∈ db.event_titles.map fun et => et.id) :
    (selectEventTitles db id).map (fun et => et.ID) =
      (db.report_event_titles.filter fun ret => decide (ret.report_id = id)).map
        fun ret => ret.event_title_id := by
  unfold selectEventTitles
  generalize (db.report_event_titles.filter fun ret => decide (ret.report_id = id)) = links
    at hvalid ⊢
  induction links with
  | nil => rfl
  | cons ret links ih =>
    obtain ⟨et, het, hket⟩ := filter_key_unique (fun et : EventTitleRow => et.id)
      db.event_titles hnd ret.event_title_id (hvalid ret (List.mem_cons_self _ _))
    rw [List.flatMap_cons, List.map_append, List.map_cons,
      ih fun x hx => hvalid x (List.mem_cons_of_mem _ hx)]
    simp only [het, List.map_cons, List.map_nil, List.singleton_append, List.cons.injEq,
      and_true]
    exact hket

/-- The ids of the Part 3 rows built from a payload are those of their calls. -/
theorem part3RowsOf_ids (env : Env) (id : Int) :
    ∀ (xs : List EventPart3) (k : Nat), ∀ row ∈ part3RowsOf env id k xs,
      ∃ j, k ≤ j ∧ j < k + xs.length ∧ row.id = env.newID j := by
  intro xs
  induction xs with
  | nil => intro k row h; simp [part3RowsOf] at h
  | cons x xs ih =>
    intro k row h
    simp only [part3RowsOf, List.mem_cons] at h
    rcases h with rfl | h
    · exact ⟨k, Nat.le_refl k, by simp, rfl⟩
    · obtain ⟨j, hj, hj2, hrow⟩ := ih (k + 1) row h
      exact ⟨j, by omega, by simp only [List.length_cons]; omega, hrow⟩

/-- The ids of the Part 4 rows built from a payload are those of their calls. -/
theorem part4RowsOf_ids (env : Env) (id : Int) :
    ∀ (xs : List EventPart4) (k : Nat), ∀ row ∈ part4RowsOf env id k xs,
      ∃ j, k ≤ j ∧ j < k + xs.length ∧ row.id = env.newID j := by
  intro xs
  induction xs with
  | nil => intro k row h; simp [part4RowsOf] at h
  | cons x xs ih =>
    intro k row h
    simp only [part4RowsOf, List.mem_cons] at h
    rcases h with rfl | h
    · exact ⟨k, Nat.le_refl k, by simp, rfl⟩
    · obtain ⟨j, hj, hj2, hrow⟩ := ih (k + 1) row h
      exact ⟨j, by omega, by simp only [List.length_cons]; omega, hrow⟩

/-- When the serial ids of the Part 3 inserts of a request grow from one insert
to the next, the Part 3 rows built from the payload are in strictly ascending
order of id. -/
theorem part3RowsOf_ascending (env : Env) (id : Int) :
    ∀ (xs : List EventPart3) (k : Nat),
      (∀ a b, k ≤ a → a < b → b < k + xs.length → env.newID a < env.newID b) →
      (part3RowsOf env id k xs).Pairwise fun a b => a.id < b.id := by
  intro xs
  induction xs with
  | nil => intro k _; simp [part3RowsOf]
  | cons x xs ih =>
    intro k hserial
    simp only [part3RowsOf, List.pairwise_cons]
    refine ⟨?_, ih (k + 1) fun a b h1 h2 h3 =>
      hserial a b (by omega) h2 (by simp only [List.length_cons]; omega)⟩
    intro row hrow
    obtain ⟨j, hj, hj2, hid⟩ := part3RowsOf_ids env id xs (k + 1) row hrow
    rw [hid]
    exact hserial k j (Nat.le_refl k) (by omega) (by simp only [List.length_cons]; omega)

/-- When the serial ids of the Part 4 inserts of a request grow from one insert
to the next, the Part 4 rows built from the payload are in strictly ascending
order of id. -/
theorem part4RowsOf_ascending (env : Env) (id : Int) :
    ∀ (xs : List EventPart4) (k : Nat),
      (∀ a b, k ≤ a → a < b → b < k + xs.length → env.newID a < env.newID b) →
      (part4RowsOf env id k xs).Pairwise fun a b => a.id < b.id := by
  intro xs
  induction xs with
  | nil => intro k _; simp [part4RowsOf]
  | cons x xs ih =>
    intro k hserial
    simp only [part4RowsOf, List.pairwise_cons]
    refine ⟨?_, ih (k + 1) fun a b h1 h2 h3 =>
      hserial a b (by omega) h2 (by simp only [List.length_cons]; omega)⟩
    intro row hrow
    obtain ⟨j, hj, hj2, hid⟩ := part4RowsOf_ids env id xs (k + 1) row hrow
    rw [hid]
    exact hserial k j (Nat.le_refl k) (by omega) (by simp only [List.length_cons]; omega)

/-- Sorting by a key puts rows with distinct keys, found in any order, in
ascending order of key. -/
theorem orderBy_perm_ascending {α : Type} (key : α → Int) (l sorted : List α)
    (hperm : l.Perm sorted) (hsorted : sorted.Pairwise fun a b => key a < key b) :
    orderBy (fun a b => decide (key a ≤ key b)) l = sorted := by
  have hp : (orderBy (fun a b => decide (key a ≤ key b)) l).Perm sorted :=
    (orderBy_perm _ l).trans hperm
  have hle := orderBy_sorted (fun a b => decide (key a ≤ key b))
    (fun a b => by
      rcases Int.le_total (key a) (key b) with h | h
      · exact Or.inl (by simpa using h)
      · exact Or.inr (by simpa using h))
    (fun a b c h1 h2 => by
      simp only [decide_eq_true_eq] at h1 h2 ⊢
      exact Int.le_trans h1 h2) l
  have hne : (orderBy (fun a b => decide (key a ≤ key b)) l).Pairwise
      fun a b => key a ≠ key b :=
    (hp.pairwise_iff fun {x y} (h : key x ≠ key y) => h.symm).mpr
      (hsorted.imp fun h => Int.ne_of_lt h)
  have hlt : (orderBy (fun a b => decide (key a ≤ key b)) l).Pairwise
      fun a b => key a < key b :=
    (hle.and hne).imp fun {a b} h => by
      have h1 : key a ≤ key b := by simpa using h.1
      exact lt_of_le_of_ne h1 h.2
  haveI : IsAntisymm α (fun a b => key a < key b) :=
    ⟨fun a b h1 h2 => absurd h1 (Int.not_lt.mpr (Int.le_of_lt h2))⟩
  exact List.eq_of_perm_of_sorted hp hlt hsorted

/-- Reversing every table keeps the rows. -/
theorem reversedStore_sameRows (db : Store) : (reversedStore db).sameRows db :=
  ⟨List.reverse_perm _, List.reverse_perm _, List.reverse_perm _, List.reverse_perm _,
    List.reverse_perm _, List.reverse_perm _, List.reverse_perm _, List.reverse_perm _⟩

/-- The summary, trigger and RCA number read back from the Part 3 rows built
from a payload are the submitted ones, in order. -/
theorem part3RowsOf_fields (env : Env) (id : Int) :
    ∀ (xs : List EventPart3) (k : Nat),
      ((part3RowsOf env id k xs).map scanPart3Time).map
          (fun e => (e.EventSummary, e.Trigger, e.RCANumber)) =
        xs.map fun e => (e.EventSummary, e.Trigger, e.RCANumber) := by
  intro xs
  induction xs with
  | nil => intro k; rfl
  | cons x xs ih =>
    intro k
    simp only [part3RowsOf, List.map_cons, ih (k + 1)]
    rfl

/-- The summary and trigger read back from the Part 4 rows built from a
payload are the submitted ones, in order. -/
theorem part4RowsOf_fields (env : Env) (id : Int) :
    ∀ (xs : List EventPart4) (k : Nat),
      ((part4RowsOf env id k xs).map scanPart4Time).map
          (fun e => (e.EventSummary, e.Trigger)) =
        xs.map fun e => (e.EventSummary, e.Trigger) := by
  intro xs
  induction xs with
  | nil => intro k; rfl
  | cons x xs ih =>
    intro k
    simp only [part4RowsOf, List.map_cons, ih (k + 1)]
    rfl

/-- Without storage faults one turn of the outer loop of the collection fetch
builds the aggregate of all the rows of its four queries. -/
theorem loadReport_quiet (env : Env) (db : Store) (hquiet : ∀ k, env.rows k = .none)
    (k : Nat) (row : ReportRow × UserRow × Option ShiftHoursRow) :
    loadReport env db k row =
      some (collectedReport db row (selectShiftManagers db row.1.id).length
        (selectEventTitles db row.1.id).length (selectPart4 db row.1.id).length) := by
  simp only [loadReport, hquiet, loadRows, Option.bind_eq_bind, Option.some_bind,
    Option.pure_def, collectedReport, List.take_length]
  rfl

/-- Without storage faults the outer loop of the collection fetch builds one
aggregate per root row. -/
theorem loadReports_quiet (env : Env) (db : Store) (hquiet : ∀ k, env.rows k = .none) :
    ∀ (rows : List (ReportRow × UserRow × Option ShiftHoursRow)) (k : Nat),
      loadReports env db k rows =
        some (rows.map fun row =>
          collectedReport db row (selectShiftManagers db row.1.id).length
            (selectEventTitles db row.1.id).length (selectPart4 db row.1.id).length) := by
  intro rows
  induction rows with
  | nil => intro k; rfl
  | cons row rest ih =>
    intro k
    simp only [loadReports, loadReport_quiet env db hquiet, ih (k + 4), Option.bind_eq_bind,
      Option.some_bind, Option.pure_def, List.map_cons]

/-- Without storage faults the collection fetch answers 200 with one aggregate
per root row of its query, in the order of the query. -/
theorem getReportsHandler_quiet (env : Env) (db : Store) (r : Request)
    (hquiet : ∀ k, env.rows k = .none) :
    getReportsHandler env db r =
      .ok ((orderBy reportBefore
          (selectReports db fun dr => r.date == [] || dr.report_date == r.date)).map fun row =>
        collectedReport db row (selectShiftManagers db row.1.id).length
          (selectEventTitles db row.1.id).length (selectPart4 db row.1.id).length) := by
  unfold getReportsHandler
  dsimp only
  rw [hquiet 0]
  simp only [loadRows, loadReports_quiet env db hquiet]

/-! ## Storage normalisation -/

/-- C11: the normalisation computed before each Part 3 and Part 4 insert is the
storage form of the specification (anchor date, value, `:00` for a non-empty
value of at most 5 bytes, the value itself otherwise), and it is what reaches
storage for start and end time alike: after a create that answers 200 and
commits, the rows added to the two event tables carry the storage forms of the
submitted times, and after an update that answers 200 so do the rows of the
report in the two event tables. -/
theorem stored_time_canonical (env : Env) (db : Store) (r : Request) (d : ReportData)
    (hbody : r.body = some d) :
    (∀ s : GoString, normalizeTime s = canonicalTime s) ∧
    (∀ id, (createReportHandler env db r).2 = .ok id →
      env.fail (2 + childCount d) = false →
      (((createReportHandler env db r).1.report_events_part3.drop
          db.report_events_part3.length).map fun row => (row.start_time, row.end_time)) =
        d.EventsPart3.map (fun e =>
          (some (canonicalTime e.StartTime), some (canonicalTime e.EndTime))) ∧
      (((createReportHandler env db r).1.report_events_part4.drop
          db.report_events_part4.length).map fun row => (row.start_time, row.end_time)) =
        d.EventsPart4.map (fun e =>
          (some (canonicalTime e.StartTime), some (canonicalTime e.EndTime)))) ∧
    (∀ id, r.id = some id → (updateReportHandler env db r).2 = .ok () →
      (((updateReportHandler env db r).1.report_events_part3.filter
          fun row => decide (row.report_id = id)).map
          fun row => (row.start_time, row.end_time)) =
        d.EventsPart3.map (fun e =>
          (some (canonicalTime e.StartTime), some (canonicalTime e.EndTime))) ∧
      (((updateReportHandler env db r).1.report_events_part4.filter
          fun row => decide (row.report_id = id)).map
          fun row => (row.start_time, row.end_time)) =
        d.EventsPart4.map (fun e =>
          (some (canonicalTime e.StartTime), some (canonicalTime e.EndTime)))) := by
  refine ⟨normalizeTime_eq_canonicalTime, ?_, ?_⟩
  · intro id hok hcommit
    obtain ⟨userID, _, _, hstore⟩ := createReportHandler_stored env db r d id hbody hok hcommit
    rw [hstore]
    simp only [List.drop_left, part3RowsOf_times, part4RowsOf_times,
      normalizeTime_eq_canonicalTime, and_self]
  · intro id hid hok
    obtain ⟨id2, d2, hi2, hb2, _, _, htx⟩ := updateReportHandler_ok env db r hok
    rw [hid] at hi2
    rw [hbody] at hb2
    cases hi2
    cases hb2
    have hres := insertChildren_result env id d 7 _ _ (updateReportTx_some env d id db _ htx).2
    rw [hres]
    simp only [deletePart4, deletePart3, deleteEventTitles, deleteShiftManagers, updateReport]
    rw [filter_replaced (fun row : Part3Row => row.report_id) id _ _
        (part3RowsOf_report_id env id _ _),
      filter_replaced (fun row : Part4Row => row.report_id) id _ _
        (part4RowsOf_report_id env id _ _)]
    simp only [part3RowsOf_times, part4RowsOf_times, normalizeTime_eq_canonicalTime, and_self]

/-- Witness of C11: user 1 creates a report from the sample payload, whose
Part 3 entry runs from `08:30` to `09:00`. -/
theorem stored_time_canonical_witness :
    (((createReportHandler quietEnv sampleStore
          (requestFor 1 (some samplePayload) (sessionOf 1 "user"))).1.report_events_part3.drop
          sampleStore.report_events_part3.length).map
          fun row => (row.start_time, row.end_time)) =
      [(some (ascii "1970-01-01 08:30:00"), some (ascii "1970-01-01 09:00:00"))] :=
  ((stored_time_canonical quietEnv sampleStore
      (requestFor 1 (some samplePayload) (sessionOf 1 "user")) samplePayload rfl).2.1
      101 (by decide) (by decide)).1

/-! ## Display extraction -/

/-- C12: in the collection fetch a stored time `t` of at least 19 bytes is
returned as its 5 bytes at positions 11 to 15, all in range, and a shorter one
is returned as it is; `"1970-01-01 08:30:00"` gives `"08:30"`; a NULL gives the
empty string.  This is what the Part 3 and Part 4 loops of the collection fetch
compute for start and end time, and every event of a 200 response comes from
these loops. -/
theorem collection_extracts_time (t : GoString) :
    (19 ≤ t.length → (extractTime t).length = 5 ∧
      ∀ i, i < 5 → 11 + i < t.length ∧ (extractTime t)[i]? = t[11 + i]?) ∧
    (t.length < 19 → extractTime t = t) ∧
    extractTime (ascii "1970-01-01 08:30:00") = ascii "08:30" ∧
    (∀ row : Part3Row,
      (scanPart3Time { row with start_time := some t }).StartTime = extractTime t ∧
      (scanPart3Time { row with end_time := some t }).EndTime = extractTime t ∧
      (scanPart3Time { row with start_time := none }).StartTime = [] ∧
      (scanPart3Time { row with end_time := none }).EndTime = []) ∧
    (∀ row : Part4Row,
      (scanPart4Time { row with start_time := some t }).StartTime = extractTime t ∧
      (scanPart4Time { row with end_time := some t }).EndTime = extractTime t ∧
      (scanPart4Time { row with start_time := none }).StartTime = [] ∧
      (scanPart4Time { row with end_time := none }).EndTime = []) ∧
    (∀ (env : Env) (db : Store) (r : Request) (reports : List DailyReport),
      getReportsHandler env db r = .ok reports → ∀ report ∈ reports,
        report.EventsPart3 = (selectPart3 db report.ID).map scanPart3Time ∧
        ∃ n, report.EventsPart4 = ((selectPart4 db report.ID).take n).map scanPart4Time) := by
  refine ⟨?_, ?_, by decide, ?_, ?_, ?_⟩
  · intro h
    have hlen : (extractTime t).length = 5 := by
      simp only [extractTime, ge_iff_le, h, if_true, List.length_take, List.length_drop]
      omega
    refine ⟨hlen, ?_⟩
    intro i hi
    refine ⟨by omega, ?_⟩
    simp only [extractTime, ge_iff_le, h, if_true]
    rw [List.getElem?_take_of_lt hi, List.getElem?_drop]
  · intro h
    have h2 : ¬ t.length ≥ 19 := by omega
    simp only [extractTime, h2, if_false]
  · intro row
    exact ⟨rfl, rfl, rfl, rfl⟩
  · intro row
    exact ⟨rfl, rfl, rfl, rfl⟩
  · intro env db r reports hok report hmem
    obtain ⟨row, _, n1, n2, n4, hrep⟩ :=
      loadReports_mem env db _ 1 reports (getReportsHandler_ok env db r reports hok) report hmem
    rw [hrep]
    exact ⟨rfl, n4, rfl⟩

/-- Witness of C12 at the stored value `"1970-01-01 08:30:00"`. -/
theorem collection_extracts_time_witness :
    (extractTime (ascii "1970-01-01 08:30:00")).length = 5 ∧
      ∀ i, i < 5 → 11 + i < (ascii "1970-01-01 08:30:00").length ∧
        (extractTime (ascii "1970-01-01 08:30:00"))[i]? =
          (ascii "1970-01-01 08:30:00")[11 + i]? :=
  (collection_extracts_time (ascii "1970-01-01 08:30:00")).1 (by decide)

/-! ## Short times -/

/-- C13, the claim as stated fails: the non-empty 4-byte time `"8:30"` is stored
as `"1970-01-01 8:30:00"`, which has 18 bytes, and extraction returns that
stored value, not `"8:30"`. -/
theorem short_time_not_recovered :
    ascii "8:30" ≠ [] ∧ (ascii "8:30").length ≤ 5 ∧
    normalizeTime (ascii "8:30") = ascii "1970-01-01 8:30:00" ∧
    (normalizeTime (ascii "8:30")).length = 18 ∧
    extractTime (normalizeTime (ascii "8:30")) = ascii "1970-01-01 8:30:00" ∧
    extractTime (normalizeTime (ascii "8:30")) ≠ ascii "8:30" := by
  decide

/-- C13 as amended: for every non-empty time `s` of at most 5 bytes the stored
value is the anchor date, `s` and `:00`, of `len(s) + 14` bytes; it has at
least 19 bytes, and extraction of it returns `s`, exactly when `s` has 5
bytes. -/
theorem stored_time_recovered_iff (s : GoString) (hne : s ≠ []) (hlen : s.length ≤ 5) :
    normalizeTime s = ascii "1970-01-01 " ++ s ++ ascii ":00" ∧
    (normalizeTime s).length = s.length + 14 ∧
    (19 ≤ (normalizeTime s).length ↔ s.length = 5) ∧
    (extractTime (normalizeTime s) = s ↔ s.length = 5) := by
  have hnorm : normalizeTime s = ascii "1970-01-01 " ++ s ++ ascii ":00" := by
    simp only [normalizeTime, hne, hlen, ne_eq, not_false_eq_true, and_self, if_true]
  have hl : (normalizeTime s).length = s.length + 14 := by
    rw [hnorm]
    simp only [List.length_append]
    have h1 : (ascii "1970-01-01 ").length = 11 := by decide
    have h2 : (ascii ":00").length = 3 := by decide
    omega
  refine ⟨hnorm, hl, by omega, ?_⟩
  constructor
  · intro h
    by_contra h5
    have hshort : ¬ (normalizeTime s).length ≥ 19 := by omega
    simp only [extractTime, hshort, if_false] at h
    have := congrArg List.length h
    omega
  · intro h5
    match s, h5 with
    | [a, b, c, d, e], _ => simp [normalizeTime, extractTime, ascii]

/-- Witness of the amended C13 at `"08:30"`. -/
theorem stored_time_recovered_iff_witness :
    extractTime (normalizeTime (ascii "08:30")) = ascii "08:30" :=
  (stored_time_recovered_iff (ascii "08:30") (by decide) (by decide)).2.2.2.mpr (by decide)

/-! ## Idempotence -/

/-- C14: normalising a normalised value and extracting from an extracted value
change nothing, for every input string. -/
theorem time_conversions_idempotent (s t : GoString) :
    normalizeTime (normalizeTime s) = normalizeTime s ∧
    extractTime (extractTime t) = extractTime t := by
  constructor
  · by_cases h : s ≠ [] ∧ s.length ≤ 5
    · have hnorm : normalizeTime s = ascii "1970-01-01 " ++ s ++ ascii ":00" := by
        unfold normalizeTime
        rw [if_pos h]
      have hl : ¬ (normalizeTime s).length ≤ 5 := by
        rw [hnorm]
        simp only [List.length_append]
        have h1 : (ascii "1970-01-01 ").length = 11 := by decide
        omega
      rw [normalizeTime]
      simp only [hl, and_false, if_false]
    · have hnorm : normalizeTime s = s := by
        unfold normalizeTime
        rw [if_neg h]
      rw [hnorm, hnorm]
  · by_cases h : t.length ≥ 19
    · have hl : ¬ (extractTime t).length ≥ 19 := by
        simp only [extractTime, h, if_true, List.length_take, List.length_drop]
        omega
      rw [extractTime]
      simp only [hl, if_false]
    · have hex : extractTime t = t := by
        simp only [extractTime, h, if_false]
      rw [hex, hex]

/-! ## Update of a missing report -/

/-- C15: an update whose id and body parse, whose lookup meets no storage
fault, and whose id has no root row answers 404 and leaves the database
unchanged, whatever the session holds: the lookup comes before the session is
read. -/
theorem update_missing_report (env : Env) (db : Store) (r : Request) (id : Int)
    (d : ReportData) (hid : r.id = some id) (hbody : r.body = some d)
    (hquery : env.fail 0 = false) (hmissing : ∀ row ∈ db.daily_reports, row.id ≠ id) :
    ∀ session : Session,
      updateReportHandler env db { r with session := session } = (db, .error 404) := by
  intro session
  have hfind : (db.daily_reports.find? fun row => decide (row.id = id)) = none := by
    rw [List.find?_eq_none]
    intro row hrow
    simpa using hmissing row hrow
  simp only [updateReportHandler, hid, hbody, hquery, hfind]
  rfl

/-- Witness of C15: an update of report 7, which the sample database does not
hold, by its would-be creator, by an admin and without any session value. -/
theorem update_missing_report_witness :
    updateReportHandler quietEnv sampleStore
        (requestFor 7 (some samplePayload) (sessionOf 3 "admin")) =
      (sampleStore, .error 404) ∧
    updateReportHandler quietEnv sampleStore
        (requestFor 7 (some samplePayload) emptySession) = (sampleStore, .error 404) :=
  ⟨update_missing_report quietEnv sampleStore
      (requestFor 7 (some samplePayload) emptySession) 7 samplePayload rfl rfl rfl
      (by decide) (sessionOf 3 "admin"),
   update_missing_report quietEnv sampleStore
      (requestFor 7 (some samplePayload) emptySession) 7 samplePayload rfl rfl rfl
      (by decide) emptySession⟩

/-! ## Creator and creation time -/

/-- C16: whatever the request and whatever fails, an update leaves the id,
`created_by` and `created_at` of every root row as they were; the root table is
either untouched or is the one written by the `UPDATE` statement, which sets
the date, the shift-hours reference and the three health flags of the rows of
the id and nothing else. -/
theorem update_keeps_creator (env : Env) (db : Store) (r : Request) :
    ((updateReportHandler env db r).1.daily_reports.map
        fun row => (row.id, row.created_by, row.created_at)) =
      db.daily_reports.map (fun row => (row.id, row.created_by, row.created_at)) ∧
    ((updateReportHandler env db r).1.daily_reports = db.daily_reports ∨
      ∃ id d, r.id = some id ∧ r.body = some d ∧
        (updateReportHandler env db r).1.daily_reports =
          db.daily_reports.map fun row =>
            if row.id = id then
              { row with report_date := d.ReportDate, shift_hours_id := d.ShiftHoursID,
                         health_power_sources := d.HealthPowerSources,
                         health_humidity_temp := d.HealthHumidityTemp,
                         health_fire_system := d.HealthFireSystem }
            else row) := by
  by_cases hsame : (updateReportHandler env db r).1 = db
  · rw [hsame]
    exact ⟨rfl, Or.inl rfl⟩
  · obtain ⟨id, d, hid, hbody, _, _, htx⟩ :=
      updateReportHandler_ok env db r (updateReportHandler_changed env db r hsame)
    have hres := insertChildren_result env id d 7 _ _ (updateReportTx_some env d id db _ htx).2
    have hroot : (updateReportHandler env db r).1.daily_reports =
        db.daily_reports.map fun row =>
          if row.id = id then
            { row with report_date := d.ReportDate, shift_hours_id := d.ShiftHoursID,
                       health_power_sources := d.HealthPowerSources,
                       health_humidity_temp := d.HealthHumidityTemp,
                       health_fire_system := d.HealthFireSystem }
          else row := by
      rw [hres]
      rfl
    refine ⟨?_, Or.inr ⟨id, d, hid, hbody, hroot⟩⟩
    rw [hroot, List.map_map]
    apply List.map_congr_left
    intro row _
    by_cases hrow : row.id = id <;> simp [hrow]

/-! ## Creator of a new report -/

/-- C17: after a create that answers 200 with id `id` and whose commit
succeeds, the root table has one more row, with id `id`, the submitted scalar
fields, and as `created_by` the user id of the session; and a second create
with the same session, whatever its body, its database and its environment,
stores the same `created_by`. -/
theorem create_records_session_user (env : Env) (db : Store) (r : Request) (d : ReportData)
    (id : Int) (hbody : r.body = some d)
    (hok : (createReportHandler env db r).2 = .ok id)
    (hcommit : env.fail (2 + childCount d) = false) :
    ∃ userID, r.session.user_id = some userID ∧
      (createReportHandler env db r).1.daily_reports = db.daily_reports ++
        [{ id := id, report_date := d.ReportDate, shift_hours_id := d.ShiftHoursID,
           health_power_sources := d.HealthPowerSources,
           health_humidity_temp := d.HealthHumidityTemp,
           health_fire_system := d.HealthFireSystem,
           created_by := userID, created_at := env.createdAt }] ∧
      ∀ (env2 : Env) (db2 : Store) (r2 : Request) (d2 : ReportData) (id2 : Int),
        r2.session = r.session → r2.body = some d2 →
        (createReportHandler env2 db2 r2).2 = .ok id2 →
        env2.fail (2 + childCount d2) = false →
        ((createReportHandler env2 db2 r2).1.daily_reports.drop
            db2.daily_reports.length).map (fun row => row.created_by) = [userID] := by
  obtain ⟨userID, huser, _, hstore⟩ := createReportHandler_stored env db r d id hbody hok hcommit
  refine ⟨userID, huser, ?_, ?_⟩
  · rw [hstore]
  · intro env2 db2 r2 d2 id2 hsession hbody2 hok2 hcommit2
    obtain ⟨userID2, huser2, _, hstore2⟩ :=
      createReportHandler_stored env2 db2 r2 d2 id2 hbody2 hok2 hcommit2
    rw [hsession, huser] at huser2
    cases huser2
    rw [hstore2]
    simp

/-- Witness of C17: user 2 creates a report from the sample payload. -/
theorem create_records_session_user_witness :
    (createReportHandler quietEnv sampleStore
        (postRequest samplePayload (sessionOf 2 "user"))).1.daily_reports =
      sampleStore.daily_reports ++
        [{ id := 101, report_date := samplePayload.ReportDate,
           shift_hours_id := samplePayload.ShiftHoursID,
           health_power_sources := samplePayload.HealthPowerSources,
           health_humidity_temp := samplePayload.HealthHumidityTemp,
           health_fire_system := samplePayload.HealthFireSystem,
           created_by := 2, created_at := quietEnv.createdAt }] :=
  match create_records_session_user quietEnv sampleStore
      (postRequest samplePayload (sessionOf 2 "user")) samplePayload 101 rfl
      (by decide) (by decide) with
  | ⟨_, hu, hrows, _⟩ => by
    cases hu
    exact hrows

/-! ## Create then fetch -/

/-- C18: let a create with payload `d` answer 200 with id `id` and commit, in a
database that satisfies the constraints of the schema, for a payload whose
references are valid, a creator who is a user, and an id not in use; let the
serial ids given to its Part 3 rows grow from one insert to the next, and
likewise those of its Part 4 rows (each table has its own sequence, nothing is
asked across tables).  Then, in whatever physical order the tables hold the
rows after the create, a collection fetch without storage faults, unfiltered or
filtered by the submitted date, answers 200 and returns an aggregate with id
`id`; and every returned aggregate with that id has the submitted date,
shift-hours reference and health flags, managers and event titles whose ids
are, up to order, the submitted ids, and Part 3 and Part 4 lists with the
submitted summary, trigger and RCA number in each position, in the submitted
order. -/
theorem create_then_fetch (env : Env) (db : Store) (r : Request) (d : ReportData) (id : Int)
    (stored : Store) (env2 : Env) (r2 : Request) (hbody : r.body = some d)
    (hok : (createReportHandler env db r).2 = .ok id)
    (hcommit : env.fail (2 + childCount d) = false)
    (hdb : db.consistent) (hvalid : d.valid db)
    (hcreator : ∀ u, r.session.user_id = some u → u ∈ db.users.map fun x => x.id)
    (hunused : db.unused id)
    (hserial3 : ∀ a b, 2 + d.ShiftManagerIDs.length + d.EventTitleIDs.length ≤ a → a < b →
      b < 2 + d.ShiftManagerIDs.length + d.EventTitleIDs.length + d.EventsPart3.length →
      env.newID a < env.newID b)
    (hserial4 : ∀ a b,
      2 + d.ShiftManagerIDs.length + d.EventTitleIDs.length + d.EventsPart3.length ≤ a →
      a < b →
      b < 2 + d.ShiftManagerIDs.length + d.EventTitleIDs.length + d.EventsPart3.length +
        d.EventsPart4.length →
      env.newID a < env.newID b)
    (hstored : stored.sameRows (createReportHandler env db r).1)
    (hquiet : ∀ k, env2.rows k = .none)
    (hdate : r2.date = [] ∨ r2.date = d.ReportDate) :
    ∃ reports, getReportsHandler env2 stored r2 = .ok reports ∧
      (∃ report ∈ reports, report.ID = id) ∧
      ∀ report ∈ reports, report.ID = id →
        report.ReportDate = d.ReportDate ∧
        report.ShiftHours.map (fun sh => sh.ID) = d.ShiftHoursID ∧
        report.HealthPowerSources = d.HealthPowerSources ∧
        report.HealthHumidityTemp = d.HealthHumidityTemp ∧
        report.HealthFireSystem = d.HealthFireSystem ∧
        (report.ShiftManagers.map fun u => u.ID).Perm d.ShiftManagerIDs ∧
        (report.EventTitles.map fun t => t.ID).Perm d.EventTitleIDs ∧
        report.EventsPart3.map (fun e => (e.EventSummary, e.Trigger, e.RCANumber)) =
          d.EventsPart3.map (fun e => (e.EventSummary, e.Trigger, e.RCANumber)) ∧
        report.EventsPart4.map (fun e => (e.EventSummary, e.Trigger)) =
          d.EventsPart4.map (fun e => (e.EventSummary, e.Trigger)) := by
  obtain ⟨userID, huser, _, hstore⟩ := createReportHandler_stored env db r d id hbody hok hcommit
  rw [hstore] at hstored
  obtain ⟨newrow, hnewrow⟩ : ∃ row : ReportRow, row =
      { id := id, report_date := d.ReportDate, shift_hours_id := d.ShiftHoursID,
        health_power_sources := d.HealthPowerSources,
        health_humidity_temp := d.HealthHumidityTemp,
        health_fire_system := d.HealthFireSystem,
        created_by := userID, created_at := env.createdAt } := ⟨_, rfl⟩
  have pusers : stored.users.Perm db.users := hstored.1
  have pshifts : stored.shift_hours.Perm db.shift_hours := hstored.2.1
  have ptitles : stored.event_titles.Perm db.event_titles := hstored.2.2.1
  have proots : stored.daily_reports.Perm (db.daily_reports ++ [newrow]) := by
    rw [hnewrow]
    exact hstored.2.2.2.1
  have plinks : stored.report_shift_managers.Perm (db.report_shift_managers ++
      d.ShiftManagerIDs.map (fun m => { report_id := id, user_id := m })) :=
    hstored.2.2.2.2.1
  have ptlinks : stored.report_event_titles.Perm (db.report_event_titles ++
      d.EventTitleIDs.map (fun t => { report_id := id, event_title_id := t })) :=
    hstored.2.2.2.2.2.1
  have ppart3 : stored.report_events_part3.Perm (db.report_events_part3 ++
      part3RowsOf env id (2 + d.ShiftManagerIDs.length + d.EventTitleIDs.length)
        d.EventsPart3) := hstored.2.2.2.2.2.2.1
  have ppart4 : stored.report_events_part4.Perm (db.report_events_part4 ++
      part4RowsOf env id
        (2 + d.ShiftManagerIDs.length + d.EventTitleIDs.length + d.EventsPart3.length)
        d.EventsPart4) := hstored.2.2.2.2.2.2.2
  -- the keys of the reference tables
  have huserids : (stored.users.map fun u => u.id).Perm (db.users.map fun u => u.id) :=
    pusers.map _
  have hshiftids : (stored.shift_hours.map fun sh => sh.id).Perm
      (db.shift_hours.map fun sh => sh.id) := pshifts.map _
  have htitleids : (stored.event_titles.map fun et => et.id).Perm
      (db.event_titles.map fun et => et.id) := ptitles.map _
  have hndusers : (stored.users.map fun u => u.id).Nodup := huserids.nodup_iff.mpr hdb.1
  have hndshifts : (stored.shift_hours.map fun sh => sh.id).Nodup :=
    hshiftids.nodup_iff.mpr hdb.2.1
  have hndtitles : (stored.event_titles.map fun et => et.id).Nodup :=
    htitleids.nodup_iff.mpr hdb.2.2.1
  -- the child rows of the new report
  have hlinks : (stored.report_shift_managers.filter
      fun rsm => decide (rsm.report_id = id)).Perm
      (d.ShiftManagerIDs.map (fun m => { report_id := id, user_id := m })) := by
    have h := plinks.filter fun rsm => decide (rsm.report_id = id)
    rwa [filter_fresh_append (fun row : ShiftManagerRow => row.report_id) id _ _ hunused.2.1
      (by
        intro row hrow
        simp only [List.mem_map] at hrow
        obtain ⟨_, _, rfl⟩ := hrow
        rfl)] at h
  have htlinks : (stored.report_event_titles.filter
      fun ret => decide (ret.report_id = id)).Perm
      (d.EventTitleIDs.map (fun t => { report_id := id, event_title_id := t })) := by
    have h := ptlinks.filter fun ret => decide (ret.report_id = id)
    rwa [filter_fresh_append (fun row : ReportEventTitleRow => row.report_id) id _ _
      hunused.2.2.1
      (by
        intro row hrow
        simp only [List.mem_map] at hrow
        obtain ⟨_, _, rfl⟩ := hrow
        rfl)] at h
  have hpart3 : selectPart3 stored id =
      part3RowsOf env id (2 + d.ShiftManagerIDs.length + d.EventTitleIDs.length)
        d.EventsPart3 := by
    unfold selectPart3
    have h := ppart3.filter fun row => decide (row.report_id = id)
    rw [filter_fresh_append (fun row : Part3Row => row.report_id) id _ _ hunused.2.2.2.1
      (part3RowsOf_report_id env id _ _)] at h
    exact orderBy_perm_ascending (fun row : Part3Row => row.id) _ _ h
      (part3RowsOf_ascending env id _ _ hserial3)
  have hpart4 : selectPart4 stored id =
      part4RowsOf env id
        (2 + d.ShiftManagerIDs.length + d.EventTitleIDs.length + d.EventsPart3.length)
        d.EventsPart4 := by
    unfold selectPart4
    have h := ppart4.filter fun row => decide (row.report_id = id)
    rw [filter_fresh_append (fun row : Part4Row => row.report_id) id _ _ hunused.2.2.2.2
      (part4RowsOf_report_id env id _ _)] at h
    exact orderBy_perm_ascending (fun row : Part4Row => row.id) _ _ h
      (part4RowsOf_ascending env id _ _ hserial4)
  have hmanagers : ((selectShiftManagers stored id).map fun u => u.ID).Perm
      d.ShiftManagerIDs := by
    rw [selectShiftManagers_user_ids stored id hndusers (by
      intro rsm hrsm
      have hmem := hlinks.mem_iff.mp hrsm
      simp only [List.mem_map] at hmem
      obtain ⟨m, hm, rfl⟩ := hmem
      exact huserids.mem_iff.mpr (hvalid.1 m hm))]
    have h := hlinks.map fun rsm => rsm.user_id
    simpa [List.map_map, Function.comp_def] using h
  have hevtitles : ((selectEventTitles stored id).map fun t => t.ID).Perm
      d.EventTitleIDs := by
    rw [selectEventTitles_title_ids stored id hndtitles (by
      intro ret hret
      have hmem := htlinks.mem_iff.mp hret
      simp only [List.mem_map] at hmem
      obtain ⟨t, ht, rfl⟩ := hmem
      exact htitleids.mem_iff.mpr (hvalid.2.1 t ht))]
    have h := htlinks.map fun ret => ret.event_title_id
    simpa [List.map_map, Function.comp_def] using h
  refine ⟨_, getReportsHandler_quiet env2 stored r2 hquiet, ?_, ?_⟩
  · -- the new root row is among the rows of the query
    have hu := huserids.mem_iff.mpr (hcreator userID huser)
    simp only [List.mem_map] at hu
    obtain ⟨u, hu1, hu2⟩ := hu
    obtain ⟨sh, hsh⟩ := joinShiftHours_single stored newrow hndshifts
    have hrow : (newrow, u, sh) ∈
        selectReports stored fun dr => r2.date == [] || dr.report_date == r2.date := by
      rw [selectReports_mem]
      refine ⟨?_, ?_, ?_, ?_, ?_⟩
      · exact proots.mem_iff.mpr (List.mem_append_right _ (List.mem_singleton_self _))
      · rcases hdate with h | h
        · rw [h]
          rfl
        · rw [h, hnewrow]
          simp
      · exact hu1
      · rw [hnewrow]
        exact hu2.symm
      · rw [hsh]
        exact List.mem_singleton_self _
    refine ⟨_, List.mem_map_of_mem _ ((orderBy_perm reportBefore _).mem_iff.mpr hrow), ?_⟩
    rw [hnewrow]
    rfl
  · intro report hmem hid
    simp only [List.mem_map] at hmem
    obtain ⟨row, hrow, rfl⟩ := hmem
    have hrow := (selectReports_mem stored _ row).mp
      ((orderBy_perm reportBefore _).mem_iff.mp hrow)
    obtain ⟨dr, u, sh⟩ := row
    have hdrid : dr.id = id := hid
    obtain ⟨h1, _, _, _, h5⟩ := hrow
    simp only at h1 h5
    have h1 := proots.mem_iff.mp h1
    rw [List.mem_append, List.mem_singleton] at h1
    rcases h1 with h1 | h1
    · exact absurd hdrid (hunused.1 dr h1)
    · subst h1
      have hshref := joinShiftHours_ref stored dr hndshifts
        (by
          intro k hk
          rw [hnewrow] at hk
          exact hshiftids.mem_iff.mpr (hvalid.2.2 k hk))
        sh h5
      rw [hnewrow] at hshref
      subst hnewrow
      refine ⟨rfl, ?_, rfl, rfl, rfl, ?_, ?_, ?_, ?_⟩
      · simp only [collectedReport, scanReport, Option.map_map]
        exact hshref
      · simp only [collectedReport, List.take_length]
        exact hmanagers
      · simp only [collectedReport, List.take_length]
        exact hevtitles
      · simp only [collectedReport]
        rw [hpart3]
        exact part3RowsOf_fields env id _ _
      · simp only [collectedReport, List.take_length]
        rw [hpart4]
        exact part4RowsOf_fields env id _ _

/-- Witness of C18: user 2 creates a report with two Part 3 and two Part 4
entries in an environment where each table has its own id sequence (report id
3, Part 3 ids 2 and 3, Part 4 ids 2 and 3).  The tables are then read in the
opposite physical order, so that the Part 3 table lists the ids 3, 2, 1, and
the unfiltered collection still shows both lists of report 3 in the submitted
order. -/
theorem create_then_fetch_witness :
    (reversedStore (createReportHandler tableEnv sampleStore
        (postRequest twoEventPayload (sessionOf 2 "user"))).1).report_events_part3.map
        (fun row => row.id) = [3, 2, 1] ∧
    ∃ reports,
      getReportsHandler quietEnv
        (reversedStore (createReportHandler tableEnv sampleStore
          (postRequest twoEventPayload (sessionOf 2 "user"))).1) (listRequest "") =
        .ok reports ∧
      (∃ report ∈ reports, report.ID = 3) ∧
      ∀ report ∈ reports, report.ID = 3 →
        report.EventsPart3.map (fun e => e.EventSummary) =
          [ascii "Disk full", ascii "Disk replaced"] ∧
        report.EventsPart4.map (fun e => e.EventSummary) = [ascii "Patch", ascii "Reboot"] :=
  have h := create_then_fetch tableEnv sampleStore
    (postRequest twoEventPayload (sessionOf 2 "user")) twoEventPayload 3
    (reversedStore (createReportHandler tableEnv sampleStore
      (postRequest twoEventPayload (sessionOf 2 "user"))).1) quietEnv
    (listRequest "") rfl (by decide) (by decide)
    (by unfold Store.consistent; decide) (by unfold ReportData.valid; decide)
    (fun u hu => by cases hu; decide) (by unfold Store.unused; decide)
    (fun a b h1 h2 h3 => by
      change 4 ≤ a at h1
      change b < 6 at h3
      obtain rfl : a = 4 := by omega
      obtain rfl : b = 5 := by omega
      decide)
    (fun a b h1 h2 h3 => by
      change 6 ≤ a at h1
      change b < 8 at h3
      obtain rfl : a = 6 := by omega
      obtain rfl : b = 7 := by omega
      decide)
    (reversedStore_sameRows _) (fun _ => rfl) (Or.inl rfl)
  ⟨by decide, h.elim fun reports hr =>
    ⟨reports, hr.1, hr.2.1, fun report hmem hid =>
      ⟨by
        have h3 := congrArg (List.map fun t : GoString × GoString × GoString => t.1)
          (hr.2.2 report hmem hid).2.2.2.2.2.2.2.1
        simpa [List.map_map, Function.comp_def] using h3,
       by
        have h4 := congrArg (List.map fun t : GoString × GoString => t.1)
          (hr.2.2 report hmem hid).2.2.2.2.2.2.2.2
        simpa [List.map_map, Function.comp_def] using h4⟩⟩⟩

/-! ## Date filter and order of the collection -/

/-- C19: under the constraints of the schema, a collection fetch that answers
200 returns, up to order, one aggregate for each report row whose date equals a
non-empty filter, and one for each report row when the filter is empty; every
aggregate returned under a non-empty filter carries that date; and the
aggregates are in descending order of date and, for equal dates, of creation
time. -/
theorem collection_filtered_ordered (env : Env) (db : Store) (r : Request)
    (reports : List DailyReport) (hdb : db.consistent)
    (hok : getReportsHandler env db r = .ok reports) :
    (r.date ≠ [] →
      (reports.map fun report => (report.ID, report.ReportDate, report.CreatedAt)).Perm
        ((db.daily_reports.filter fun dr => decide (dr.report_date = r.date)).map
          fun dr => (dr.id, dr.report_date, dr.created_at)) ∧
      ∀ report ∈ reports, report.ReportDate = r.date) ∧
    (r.date = [] →
      (reports.map fun report => (report.ID, report.ReportDate, report.CreatedAt)).Perm
        (db.daily_reports.map fun dr => (dr.id, dr.report_date, dr.created_at))) ∧
    reports.Pairwise (fun a b =>
      strLess b.ReportDate a.ReportDate = true ∨
        (a.ReportDate = b.ReportDate ∧ strLess a.CreatedAt b.CreatedAt = false)) := by
  have hload := getReportsHandler_ok env db r reports hok
  have hroots := loadReports_roots env db _ 1 reports hload
  have hperm :
      (reports.map fun report => (report.ID, report.ReportDate, report.CreatedAt)).Perm
        ((db.daily_reports.filter fun dr => r.date == [] || dr.report_date == r.date).map
          fun dr => (dr.id, dr.report_date, dr.created_at)) := by
    rw [hroots, ← selectReports_roots db hdb, List.map_map]
    exact (orderBy_perm reportBefore _).map _
  refine ⟨?_, ?_, ?_⟩
  · intro hne
    have hcond : (db.daily_reports.filter fun dr => r.date == [] || dr.report_date == r.date) =
        db.daily_reports.filter fun dr => decide (dr.report_date = r.date) := by
      apply List.filter_congr
      intro dr _
      have hempty : (r.date == []) = false := by
        cases hr : r.date with
        | nil => exact absurd hr hne
        | cons _ _ => rfl
      rw [hempty]
      by_cases hd : dr.report_date = r.date <;> simp [hd]
    rw [hcond] at hperm
    refine ⟨hperm, ?_⟩
    intro report hmem
    have hin := hperm.subset (List.mem_map_of_mem
      (fun report : DailyReport => (report.ID, report.ReportDate, report.CreatedAt)) hmem)
    simp only [List.mem_map, List.mem_filter, decide_eq_true_eq, Prod.mk.injEq] at hin
    obtain ⟨dr, ⟨_, hdate⟩, _, hd, _⟩ := hin
    rw [← hd, hdate]
  · intro he
    have hcond : (db.daily_reports.filter fun dr => r.date == [] || dr.report_date == r.date) =
        db.daily_reports := by
      rw [List.filter_eq_self]
      intro dr _
      simp [he]
    rw [hcond] at hperm
    exact hperm
  · have hsorted := orderBy_sorted reportBefore reportBefore_total reportBefore_trans
      (selectReports db fun dr => r.date == [] || dr.report_date == r.date)
    have h1 : (reports.map fun report =>
        (report.ID, report.ReportDate, report.CreatedAt)).Pairwise (fun x y =>
          strLess y.2.1 x.2.1 = true ∨ (x.2.1 = y.2.1 ∧ strLess x.2.2 y.2.2 = false)) := by
      rw [hroots, List.pairwise_map]
      exact hsorted.imp fun {a b} hab => (reportBefore_iff a b).mp hab
    exact List.pairwise_map.mp h1

/-- Witness of C19: the unfiltered collection of the sample database, whose
two reports come back with the later date first. -/
theorem collection_filtered_ordered_witness :
    ((getReportsHandler quietEnv sampleStore (listRequest "")).body?.getD []).map
        (fun report => report.ReportDate) = [ascii "2024-01-03", ascii "2024-01-02"] ∧
    ((getReportsHandler quietEnv sampleStore (listRequest "")).body?.getD []).Pairwise
      (fun a b => strLess b.ReportDate a.ReportDate = true ∨
        (a.ReportDate = b.ReportDate ∧ strLess a.CreatedAt b.CreatedAt = false)) :=
  ⟨by decide,
   (collection_filtered_ordered quietEnv sampleStore (listRequest "")
      ((getReportsHandler quietEnv sampleStore (listRequest "")).body?.getD [])
      (by unfold Store.consistent; decide) (by decide)).2.2⟩

/-! ## Statuses of storage faults -/

/-- C20 (the code departs from the claim): three storage faults that are
answered with status 200.  When only the commit fails, create and delete
answer 200; when the rows of the manager query of the first report are lost to
an iteration fault, the collection fetch answers 200 with an aggregate without
managers.  The single fetch answers 500 to the same fault of its manager
query. -/
theorem storage_fault_answered_200 :
    (createReportHandler (failAt 6) sampleStore
        (postRequest samplePayload (sessionOf 1 "user"))).2.status = some 200 ∧
    (deleteReportHandler (failAt 6) sampleStore
        (requestFor 2 none (sessionOf 2 "user"))).2.status = some 200 ∧
    (getReportsHandler (iterFaultAt 1 0) sampleStore (listRequest "")).status = some 200 ∧
    ((getReportsHandler (iterFaultAt 1 0) sampleStore (listRequest "")).body?.map
        fun reports => reports.map fun report => (report.ID, report.ShiftManagers.length)) =
      some [(2, 0), (1, 1)] ∧
    (getReportHandler (iterFaultAt 1 0) sampleStore
        (requestFor 2 none emptySession)).status = some 500 := by
  refine ⟨?_, ?_, ?_, ?_, ?_⟩ <;> decide

/-! ## Partial aggregates -/

/-- C21 (the code departs from the claim): in the collection fetch an iteration
fault of the event-title query of report 1 (call 6), or of its Part 4 query
(call 8), is answered with 200 and an aggregate of report 1 without titles, or
without Part 4 entries, although one row of each is stored; only an iteration
fault of the Part 3 query (call 7) is answered with 500.  The single fetch
answers 500 to an iteration fault of its title query (call 2) and of its
Part 4 query (call 4). -/
theorem collection_returns_partial_aggregate :
    ((getReportsHandler quietEnv sampleStore (listRequest "")).body?.map
        fun reports => reports.map fun report =>
          (report.ID, report.EventTitles.length, report.EventsPart4.length)) =
      some [(2, 0, 0), (1, 1, 1)] ∧
    ((getReportsHandler (iterFaultAt 6 0) sampleStore (listRequest "")).body?.map
        fun reports => reports.map fun report =>
          (report.ID, report.EventTitles.length, report.EventsPart4.length)) =
      some [(2, 0, 0), (1, 0, 1)] ∧
    ((getReportsHandler (iterFaultAt 8 0) sampleStore (listRequest "")).body?.map
        fun reports => reports.map fun report =>
          (report.ID, report.EventTitles.length, report.EventsPart4.length)) =
      some [(2, 0, 0), (1, 1, 0)] ∧
    getReportsHandler (iterFaultAt 7 0) sampleStore (listRequest "") = .error 500 ∧
    getReportHandler (iterFaultAt 2 0) sampleStore (requestFor 1 none emptySession) =
      .error 500 ∧
    getReportHandler (iterFaultAt 4 0) sampleStore (requestFor 1 none emptySession) =
      .error 500 := by
  refine ⟨?_, ?_, ?_, ?_, ?_, ?_⟩ <;> decide

/-! ## Rows of other reports -/

/-- Deleting the rows of one id and appending rows of that id leaves the rows
of every other id as they were. -/
theorem filter_other {α : Type} (key : α → Int) (i j : Int) (hij : j ≠ i) (old new : List α)
    (hnew : ∀ row ∈ new, key row = i) :
    ((old.filter fun row => decide (key row ≠ i)) ++ new).filter
        (fun row => decide (key row = j)) =
      old.filter fun row => decide (key row = j) := by
  rw [List.filter_append, List.filter_filter]
  have h1 : old.filter (fun a => decide (key a = j) && decide (key a ≠ i)) =
      old.filter fun a => decide (key a = j) := by
    apply List.filter_congr
    intro a _
    by_cases c : key a = j
    · simp [c, hij]
    · simp [c]
  have h2 : new.filter (fun row => decide (key row = j)) = [] := by
    rw [List.filter_eq_nil_iff]
    intro a ha
    simp only [decide_eq_true_eq, hnew a ha]
    exact fun h => hij h.symm
  rw [h1, h2, List.append_nil]

/-- Deleting the rows of one id leaves the rows of every other id as they
were. -/
theorem filter_other_deleted {α : Type} (key : α → Int) (i j : Int) (hij : j ≠ i)
    (old : List α) :
    (old.filter fun row => decide (key row ≠ i)).filter (fun row => decide (key row = j)) =
      old.filter fun row => decide (key row = j) := by
  have h := filter_other key i j hij old [] (fun _ h => absurd h (List.not_mem_nil _))
  rwa [List.append_nil] at h

/-- Rewriting rows without touching the selected ones, nor what they are
selected by, leaves the selection as it was. -/
theorem filter_map_fixed {α : Type} (f : α → α) (p : α → Bool) (h1 : ∀ x, p (f x) = p x)
    (h2 : ∀ x, p x = true → f x = x) : ∀ l : List α, (l.map f).filter p = l.filter p := by
  intro l
  induction l with
  | nil => rfl
  | cons x xs ih =>
    rw [List.map_cons, List.filter_cons, List.filter_cons, h1 x, ih]
    cases hp : p x with
    | false => rfl
    | true => rw [h2 x hp]

/-- The `UPDATE` statement leaves the root rows of every other id as they
were. -/
theorem updateReport_other (d : ReportData) (i j : Int) (hij : j ≠ i) (db : Store) :
    ((updateReport d i db).daily_reports.filter fun row => decide (row.id = j)) =
      db.daily_reports.filter fun row => decide (row.id = j) := by
  simp only [updateReport]
  apply filter_map_fixed
  · intro row
    by_cases hi : row.id = i <;> simp [hi]
  · intro row hrow
    have hj : row.id = j := by simpa using hrow
    have hi : ¬ row.id = i := fun h => hij (hj.symm.trans h)
    simp [hi]

/-- The database after a delete is the one before it, or the one left by the
five deletes. -/
theorem deleteReportHandler_store (env : Env) (db : Store) (r : Request) :
    (deleteReportHandler env db r).1 = db ∨
      (deleteReportHandler env db r).1 =
        deleteReport (r.id.getD 0) (deletePart4 (r.id.getD 0) (deletePart3 (r.id.getD 0)
          (deleteEventTitles (r.id.getD 0) (deleteShiftManagers (r.id.getD 0) db)))) := by
  simp only [deleteReportHandler]
  cases ht : deleteReportTx env (r.id.getD 0) db with
  | none => exact Or.inl rfl
  | some tx =>
    by_cases hc : env.fail 6 = true
    · left
      simp [hc]
    · right
      simp only [hc, if_false, Bool.false_eq_true]
      exact (deleteReportTx_some env _ db tx ht).2

/-- C22: an update or a delete of report `i`, whatever its outcome, leaves the
root row and the manager-link, event-title-link, Part 3 and Part 4 rows of
every other report `j` as they were; and a delete of an id that has no row in
any of the five tables leaves the whole database unchanged, and answers 200
when none of its statements meets a storage fault. -/
theorem writes_leave_other_reports (env : Env) (db : Store) (r : Request) (i j : Int)
    (hid : r.id = some i) (hij : j ≠ i) :
    rowsOfReport (updateReportHandler env db r).1 j = rowsOfReport db j ∧
    rowsOfReport (deleteReportHandler env db r).1 j = rowsOfReport db j ∧
    (db.unused i →
      (deleteReportHandler env db r).1 = db ∧
      ((∀ k, k ≤ 5 → env.fail k = false) → (deleteReportHandler env db r).2 = .ok ())) := by
  have hget : r.id.getD 0 = i := by rw [hid]; rfl
  refine ⟨?_, ?_, ?_⟩
  · by_cases hsame : (updateReportHandler env db r).1 = db
    · rw [hsame]
    · obtain ⟨id, d, hid2, _, _, _, htx⟩ :=
        updateReportHandler_ok env db r (updateReportHandler_changed env db r hsame)
      rw [hid] at hid2
      cases hid2
      have hres := insertChildren_result env i d 7 _ _ (updateReportTx_some env d i db _ htx).2
      have hroot := updateReport_other d i j hij db
      rw [hres]
      simp only [updateReport] at hroot
      simp only [rowsOfReport, deletePart4, deletePart3, deleteEventTitles,
        deleteShiftManagers, updateReport, Prod.mk.injEq]
      refine ⟨hroot, ?_, ?_, ?_, ?_⟩
      · apply filter_other (fun row : ShiftManagerRow => row.report_id) i j hij
        intro row hrow
        simp only [List.mem_map] at hrow
        obtain ⟨_, _, rfl⟩ := hrow
        rfl
      · apply filter_other (fun row : ReportEventTitleRow => row.report_id) i j hij
        intro row hrow
        simp only [List.mem_map] at hrow
        obtain ⟨_, _, rfl⟩ := hrow
        rfl
      · exact filter_other (fun row : Part3Row => row.report_id) i j hij _ _
          (part3RowsOf_report_id env i _ _)
      · exact filter_other (fun row : Part4Row => row.report_id) i j hij _ _
          (part4RowsOf_report_id env i _ _)
  · rcases deleteReportHandler_store env db r with h | h
    · rw [h]
    · rw [h, hget]
      simp only [rowsOfReport, deleteReport, deletePart4, deletePart3, deleteEventTitles,
        deleteShiftManagers, Prod.mk.injEq]
      exact ⟨filter_other_deleted (fun row : ReportRow => row.id) i j hij _,
        filter_other_deleted (fun row : ShiftManagerRow => row.report_id) i j hij _,
        filter_other_deleted (fun row : ReportEventTitleRow => row.report_id) i j hij _,
        filter_other_deleted (fun row : Part3Row => row.report_id) i j hij _,
        filter_other_deleted (fun row : Part4Row => row.report_id) i j hij _⟩
  · intro hunused
    have hnone : deleteReport i (deletePart4 i (deletePart3 i (deleteEventTitles i
        (deleteShiftManagers i db)))) = db := by
      obtain ⟨h1, h2, h3, h4, h5⟩ := hunused
      have e1 : (db.daily_reports.filter fun row => decide (row.id ≠ i)) =
          db.daily_reports := by
        rw [List.filter_eq_self]
        intro row hrow
        simpa using h1 row hrow
      have e2 : (db.report_shift_managers.filter fun row => decide (row.report_id ≠ i)) =
          db.report_shift_managers := by
        rw [List.filter_eq_self]
        intro row hrow
        simpa using h2 row hrow
      have e3 : (db.report_event_titles.filter fun row => decide (row.report_id ≠ i)) =
          db.report_event_titles := by
        rw [List.filter_eq_self]
        intro row hrow
        simpa using h3 row hrow
      have e4 : (db.report_events_part3.filter fun row => decide (row.report_id ≠ i)) =
          db.report_events_part3 := by
        rw [List.filter_eq_self]
        intro row hrow
        simpa using h4 row hrow
      have e5 : (db.report_events_part4.filter fun row => decide (row.report_id ≠ i)) =
          db.report_events_part4 := by
        rw [List.filter_eq_self]
        intro row hrow
        simpa using h5 row hrow
      simp only [deleteReport, deletePart4, deletePart3, deleteEventTitles,
        deleteShiftManagers, e1, e2, e3, e4, e5]
    constructor
    · rcases deleteReportHandler_store env db r with h | h
      · exact h
      · rw [h, hget, hnone]
    · intro hcalls
      simp only [deleteReportHandler, hget, deleteReportTx_of_ok env i db hcalls]

/-- Witness of C22: user 1 updates, then deletes, report 1 of the sample
database, which leaves the rows of report 2; and report 7, which has no rows,
is deleted. -/
theorem writes_leave_other_reports_witness :
    rowsOfReport (updateReportHandler quietEnv sampleStore
        (requestFor 1 (some samplePayload) (sessionOf 1 "user"))).1 2 =
      rowsOfReport sampleStore 2 ∧
    rowsOfReport (deleteReportHandler quietEnv sampleStore
        (requestFor 1 (some samplePayload) (sessionOf 1 "user"))).1 2 =
      rowsOfReport sampleStore 2 ∧
    (deleteReportHandler quietEnv sampleStore (requestFor 7 none emptySession)).1 =
      sampleStore ∧
    (deleteReportHandler quietEnv sampleStore (requestFor 7 none emptySession)).2 = .ok () :=
  have h1 := writes_leave_other_reports quietEnv sampleStore
    (requestFor 1 (some samplePayload) (sessionOf 1 "user")) 1 2 rfl (by decide)
  have h2 := (writes_leave_other_reports quietEnv sampleStore
    (requestFor 7 none emptySession) 7 2 rfl (by decide)).2.2
    (by unfold Store.unused; decide)
  ⟨h1.1, h1.2.1, h2.1, h2.2 (fun _ _ => rfl)⟩


end Reports
